import Mathlib

/-!
# Operations dashboard: time tracker (static/js/ops.js)

A shallow embedding of the time-tracking part of `ops.js`: `formatDuration`,
`startTimer`, `stopTimer`, `createJobFromTimer`, `updateTimerDisplay`, together with
the pieces of the browser they use (`localStorage`, `JSON`, `setInterval`, the few DOM
nodes of the timer panel, `parseInt`, `Date`).

Conventions of the embedding.

* A JavaScript number is an exact rational or `NaN` (`JsNum = Option ℚ`, `none` is `NaN`);
  rounding of IEEE doubles and the infinities are not represented.  Instants (`Date.now()`)
  are integers; the platform keeps them below `8.64e15` in magnitude, where the decimal
  numeral is the `Number`-to-string conversion.  The one place of the timer where the
  rounding of doubles shows, the way from milliseconds to hours and back, has a section
  of its own with that rounding.
* A JavaScript string is a Lean `String` (a sequence of Unicode scalar values).
* Every handler takes the readings of the clock it makes as arguments and maps a `World`
  to a `World`.  Effects that leave the page (notifications, HTTP requests, scheduled
  ticks) are recorded in the `World`.
* Of the invoicing page (`app.js`) the status buttons, `updateInvoiceStatus`,
  `calculateJobTotal`, `handleJobFormSubmit` and `escapeHtml` are embedded the same way.
  The job store behind `/api/jobs` is not among the sources; what is said about it rests
  on definitions modelled from the spec, each marked as such.
-/

namespace Ops

/-! ## Numbers and strings -/

/-- A JavaScript number: a finite value, or `none` for `NaN`. -/
abbrev JsNum := Option ℚ

/-- The double quote character. -/
def dq : Char := Char.ofNat 34

/-- The backslash character. -/
def bs : Char := Char.ofNat 92

/-- The conversion `String(n)` for an integral number `n`. -/
def jsIntToString : Int → String
  | Int.ofNat n => Nat.repr n
  | Int.negSucc n => "-" ++ Nat.repr (n + 1)

/-- The method `s.padStart(targetLength, fill)` for a one-character `fill`. -/
def padStart (s : String) (targetLength : Nat) (fill : Char) : String :=
  String.mk (List.replicate (targetLength - s.length) fill) ++ s

/-- The function `Math.round` on a finite number: the nearest integer, ties going up. -/
def mathRound (x : ℚ) : Int := ⌊x + 1 / 2⌋

/-- The function `formatDuration(ms)` of ops.js.

`Math.floor(ms / 1000)` is an integer, so are the three fields computed from it; `%` is
the JavaScript remainder (sign of the dividend).  On `NaN` every field is `NaN`, whose
string already has three characters. -/
def formatDuration : JsNum → String
  | none => "NaN:NaN:NaN"
  | some ms =>
    let totalSec : Int := ⌊ms / 1000⌋
    let h := Int.fdiv totalSec 3600
    let m := Int.fdiv (Int.tmod totalSec 3600) 60
    let s := Int.tmod totalSec 60
    padStart (jsIntToString h) 2 '0' ++ ":" ++ padStart (jsIntToString m) 2 '0' ++ ":"
      ++ padStart (jsIntToString s) 2 '0'

/-! ## JSON -/

/-- A value produced by `JSON.parse`. -/
inductive Json where
  | null
  | bool (b : Bool)
  | num (q : ℚ)
  | str (s : String)
  | arr (xs : List Json)
  | obj (kvs : List (String × Json))

/-- A JavaScript value as held in a variable or property: `none` is `undefined`. -/
abbrev JsVal := Option Json

/-- One hexadecimal digit, lower case. -/
def hexDigit (n : Nat) : Char :=
  if n < 10 then Char.ofNat (48 + n) else Char.ofNat (87 + n)

/-- The escape of one character inside a JSON string literal, as `JSON.stringify` writes
it. -/
def escapeJsonChar (c : Char) : List Char :=
  if c = dq then [bs, dq]
  else if c = bs then [bs, bs]
  else if c = Char.ofNat 8 then [bs, 'b']
  else if c = Char.ofNat 12 then [bs, 'f']
  else if c = Char.ofNat 10 then [bs, 'n']
  else if c = Char.ofNat 13 then [bs, 'r']
  else if c = Char.ofNat 9 then [bs, 't']
  else if c.toNat < 32 then
    [bs, 'u', '0', '0', hexDigit (c.toNat / 16), hexDigit (c.toNat % 16)]
  else [c]

/-- The escaped body of a JSON string literal. -/
def escapeJsonChars : List Char → List Char
  | [] => []
  | c :: cs => escapeJsonChar c ++ escapeJsonChars cs

/-- The JSON string literal of `s`, quotes included. -/
def quoteJSONString (s : String) : List Char :=
  dq :: (escapeJsonChars s.data ++ [dq])

/-- The text `JSON.stringify({running: true, startTime, clientId, description})` written by
`startTimer`; `startTime` is an instant and both other fields are strings. -/
def stringifyTimerRecord (startTime : Int) (clientId description : String) : String :=
  String.mk
    ([Char.ofNat 123] ++ quoteJSONString "running" ++ [':'] ++ "true".data ++ [','] ++
      quoteJSONString "startTime" ++ [':'] ++ (jsIntToString startTime).data ++ [','] ++
      quoteJSONString "clientId" ++ [':'] ++ quoteJSONString clientId ++ [','] ++
      quoteJSONString "description" ++ [':'] ++ quoteJSONString description ++
      [Char.ofNat 125])

/-- JSON white space. -/
def isJsonWs (c : Char) : Bool :=
  c = ' ' || c = Char.ofNat 9 || c = Char.ofNat 10 || c = Char.ofNat 13

/-- Drop leading JSON white space. -/
def skipWs : List Char → List Char
  | [] => []
  | c :: cs => if isJsonWs c then skipWs cs else c :: cs

/-- The value of a hexadecimal digit. -/
def hexVal (c : Char) : Option Nat :=
  if '0' ≤ c ∧ c ≤ '9' then some (c.toNat - 48)
  else if 'a' ≤ c ∧ c ≤ 'f' then some (c.toNat - 87)
  else if 'A' ≤ c ∧ c ≤ 'F' then some (c.toNat - 55)
  else none

/-- The code unit written by four hexadecimal digits. -/
def hex4 (a b c d : Char) : Option Nat :=
  match hexVal a, hexVal b, hexVal c, hexVal d with
  | some x, some y, some z, some w => some (((x * 16 + y) * 16 + z) * 16 + w)
  | _, _, _, _ => none

/-- The character named by a one-letter escape. -/
def simpleEscape (c : Char) : Option Char :=
  if c = dq then some dq
  else if c = bs then some bs
  else if c = '/' then some '/'
  else if c = 'b' then some (Char.ofNat 8)
  else if c = 'f' then some (Char.ofNat 12)
  else if c = 'n' then some (Char.ofNat 10)
  else if c = 'r' then some (Char.ofNat 13)
  else if c = 't' then some (Char.ofNat 9)
  else none

/-- Put a character in front of a parsed string body. -/
def consResult (c : Char) : Option (List Char × List Char) → Option (List Char × List Char)
  | some (s, r) => some (c :: s, r)
  | none => none

/-- Parse the body of a JSON string literal up to and including the closing quote; the
result is the string and the rest of the input.  A surrogate pair of two `\u` escapes is
one character; a lone surrogate, which a Lean string cannot hold, is read as U+FFFD. -/
def parseStringBody : Nat → List Char → Option (List Char × List Char)
  | 0, _ => none
  | _ + 1, [] => none
  | fuel + 1, c :: rest =>
    if c = dq then some ([], rest)
    else if c = bs then
      match rest with
      | [] => none
      | e :: rest1 =>
        if e = 'u' then
          match rest1 with
          | a :: b :: c1 :: d :: rest2 =>
            match hex4 a b c1 d with
            | none => none
            | some u =>
              if 0xD800 ≤ u ∧ u < 0xDC00 then
                match rest2 with
                | b2 :: u2 :: e2 :: f2 :: g2 :: h2 :: rest3 =>
                  match hex4 e2 f2 g2 h2 with
                  | some lo =>
                    if b2 = bs ∧ u2 = 'u' ∧ 0xDC00 ≤ lo ∧ lo < 0xE000 then
                      consResult
                        (Char.ofNat (0x10000 + (u - 0xD800) * 0x400 + (lo - 0xDC00)))
                        (parseStringBody fuel rest3)
                    else consResult (Char.ofNat 0xFFFD) (parseStringBody fuel rest2)
                  | none => consResult (Char.ofNat 0xFFFD) (parseStringBody fuel rest2)
                | _ => consResult (Char.ofNat 0xFFFD) (parseStringBody fuel rest2)
              else if 0xDC00 ≤ u ∧ u < 0xE000 then
                consResult (Char.ofNat 0xFFFD) (parseStringBody fuel rest2)
              else consResult (Char.ofNat u) (parseStringBody fuel rest2)
          | _ => none
        else
          match simpleEscape e with
          | some ch => consResult ch (parseStringBody fuel rest1)
          | none => none
    else if c.toNat < 32 then none
    else consResult c (parseStringBody fuel rest)

/-- Split off the leading run of decimal digits. -/
def spanDigits : List Char → List Char × List Char
  | [] => ([], [])
  | c :: cs =>
    if c.isDigit then (c :: (spanDigits cs).1, (spanDigits cs).2) else ([], c :: cs)

/-- The number written by a run of decimal digits. -/
def digitsValue (ds : List Char) : Nat :=
  ds.foldl (fun acc c => acc * 10 + (c.toNat - 48)) 0

/-- Integer part of a JSON number: a single `0`, or a digit run starting with 1 to 9. -/
def parseIntPart : List Char → Option (Nat × List Char)
  | [] => none
  | c :: cs =>
    if c = '0' then some (0, cs)
    else if c.isDigit then some (digitsValue (c :: (spanDigits cs).1), (spanDigits cs).2)
    else none

/-- Optional fraction of a JSON number: a dot and at least one digit. -/
def parseFracPart : List Char → Option (ℚ × List Char)
  | [] => some (0, [])
  | c :: rest =>
    if c = '.' then
      match spanDigits rest with
      | ([], _) => none
      | (ds, rest1) => some ((digitsValue ds : ℚ) / (10 : ℚ) ^ ds.length, rest1)
    else some (0, c :: rest)

/-- The digits of an exponent, at least one. -/
def parseExpDigits (neg : Bool) (cs : List Char) : Option (Int × List Char) :=
  match spanDigits cs with
  | ([], _) => none
  | (ds, rest) => some (if neg then -(digitsValue ds : Int) else (digitsValue ds : Int), rest)

/-- Optional exponent of a JSON number. -/
def parseExpPart : List Char → Option (Int × List Char)
  | [] => some (0, [])
  | e :: rest =>
    if e = 'e' ∨ e = 'E' then
      match rest with
      | [] => none
      | s :: rest1 =>
        if s = '+' then parseExpDigits false rest1
        else if s = '-' then parseExpDigits true rest1
        else parseExpDigits false rest
    else some (0, e :: rest)

/-- A JSON number without its sign. -/
def parseUnsigned (cs : List Char) : Option (ℚ × List Char) :=
  match parseIntPart cs with
  | none => none
  | some (i, r1) =>
    match parseFracPart r1 with
    | none => none
    | some (f, r2) =>
      match parseExpPart r2 with
      | none => none
      | some (e, r3) => some (((i : ℚ) + f) * (10 : ℚ) ^ e, r3)

/-- A JSON number. -/
def parseNumber : List Char → Option (ℚ × List Char)
  | [] => none
  | c :: rest =>
    if c = '-' then
      match parseUnsigned rest with
      | some (q, r) => some (-q, r)
      | none => none
    else parseUnsigned (c :: rest)

/-- Drop the given characters from the head of the input, if they are there. -/
def dropLiteral : List Char → List Char → Option (List Char)
  | [], cs => some cs
  | _ :: _, [] => none
  | p :: ps, c :: cs => if p = c then dropLiteral ps cs else none

mutual
/-- Parse one JSON value at the head of the input (no leading white space). -/
def parseValue : Nat → List Char → Option (Json × List Char)
  | 0, _ => none
  | _ + 1, [] => none
  | fuel + 1, c :: rest =>
    if c = 'n' then
      match dropLiteral ['u', 'l', 'l'] rest with
      | some r => some (Json.null, r)
      | none => none
    else if c = 't' then
      match dropLiteral ['r', 'u', 'e'] rest with
      | some r => some (Json.bool true, r)
      | none => none
    else if c = 'f' then
      match dropLiteral ['a', 'l', 's', 'e'] rest with
      | some r => some (Json.bool false, r)
      | none => none
    else if c = dq then
      match parseStringBody (rest.length + 1) rest with
      | some (s, r) => some (Json.str (String.mk s), r)
      | none => none
    else if c = '[' then
      match skipWs rest with
      | [] => none
      | c1 :: r =>
        if c1 = ']' then some (Json.arr [], r)
        else match parseElements fuel (c1 :: r) with
          | some (xs, r1) => some (Json.arr xs, r1)
          | none => none
    else if c = Char.ofNat 123 then
      match skipWs rest with
      | [] => none
      | c1 :: r =>
        if c1 = Char.ofNat 125 then some (Json.obj [], r)
        else match parseMembers fuel (c1 :: r) with
          | some (kvs, r1) => some (Json.obj kvs, r1)
          | none => none
    else
      match parseNumber (c :: rest) with
      | some (q, r) => some (Json.num q, r)
      | none => none
/-- Parse the elements of a non-empty array up to and including the closing bracket. -/
def parseElements : Nat → List Char → Option (List Json × List Char)
  | 0, _ => none
  | fuel + 1, cs =>
    match parseValue fuel cs with
    | none => none
    | some (v, r) =>
      match skipWs r with
      | [] => none
      | c :: r1 =>
        if c = ',' then
          match parseElements fuel (skipWs r1) with
          | some (vs, r2) => some (v :: vs, r2)
          | none => none
        else if c = ']' then some ([v], r1)
        else none
/-- Parse the members of a non-empty object up to and including the closing brace. -/
def parseMembers : Nat → List Char → Option (List (String × Json) × List Char)
  | 0, _ => none
  | _ + 1, [] => none
  | fuel + 1, q :: r0 =>
    if q = dq then
      match parseStringBody (r0.length + 1) r0 with
      | none => none
      | some (k, r) =>
        match skipWs r with
        | [] => none
        | c0 :: r1 =>
          if c0 = ':' then
            match parseValue fuel (skipWs r1) with
            | none => none
            | some (v, r2) =>
              match skipWs r2 with
              | [] => none
              | c :: r3 =>
                if c = ',' then
                  match parseMembers fuel (skipWs r3) with
                  | some (kvs, r4) => some ((String.mk k, v) :: kvs, r4)
                  | none => none
                else if c = Char.ofNat 125 then some ([(String.mk k, v)], r3)
                else none
          else none
    else none
end

/-- The function `JSON.parse(text)`: `none` when it throws a `SyntaxError`.  Members of an
object are kept in the order written.  Every call of the three parsers above either
consumes a character or is followed by one that does, so twice the length of the text is
enough fuel. -/
def JSON_parse (text : String) : Option Json :=
  match parseValue (2 * text.length + 2) (skipWs text.data) with
  | some (v, r) => if skipWs r = [] then some v else none
  | none => none

/-! ## `parseInt`, `Date`, `ToNumber` -/

/-- White space and line terminators of JavaScript, as stripped by `parseInt`. -/
def isJsWhitespace (c : Char) : Bool :=
  c.toNat = 9 || c.toNat = 10 || c.toNat = 11 || c.toNat = 12 || c.toNat = 13 ||
  c.toNat = 32 || c.toNat = 0xA0 || c.toNat = 0x1680 ||
  (0x2000 ≤ c.toNat && c.toNat ≤ 0x200A) || c.toNat = 0x2028 || c.toNat = 0x2029 ||
  c.toNat = 0x202F || c.toNat = 0x205F || c.toNat = 0x3000 || c.toNat = 0xFEFF

/-- The number written by a run of hexadecimal digits. -/
def hexDigitsValue (ds : List Char) : Nat :=
  ds.foldl (fun acc c => acc * 16 + (hexVal c).getD 0) 0

/-- The digits read by `parseInt` after the sign: base 16 after `0x` or `0X`, base 10
otherwise; `none` (`NaN`) when there is no digit. -/
def parseIntDigits (cs : List Char) : Option Nat :=
  match cs with
  | '0' :: x :: rest =>
    if x = 'x' ∨ x = 'X' then
      match rest.takeWhile (fun c => (hexVal c).isSome) with
      | [] => none
      | ds => some (hexDigitsValue ds)
    else some (digitsValue (spanDigits cs).1)
  | _ =>
    match (spanDigits cs).1 with
    | [] => none
    | ds => some (digitsValue ds)

/-- The function `parseInt(s)` without a radix: `none` is `NaN`. -/
def parseInt (s : String) : Option Int :=
  match s.data.dropWhile isJsWhitespace with
  | '-' :: rest => (parseIntDigits rest).map (fun n => -(n : Int))
  | '+' :: rest => (parseIntDigits rest).map (fun n => (n : Int))
  | cs => (parseIntDigits cs).map (fun n => (n : Int))

/-- The year of an ISO date: four digits from 0 to 9999, otherwise a sign and six
digits. -/
def isoYear (y : Int) : String :=
  if 0 ≤ y ∧ y ≤ 9999 then padStart (jsIntToString y) 4 '0'
  else if y < 0 then "-" ++ padStart (jsIntToString (-y)) 6 '0'
  else "+" ++ padStart (jsIntToString y) 6 '0'

/-- The expression `new Date(ms).toISOString().split('T')[0]`: the calendar date, in UTC,
of the instant `ms`. -/
def isoDate (ms : Int) : String :=
  let z := ms / 86400000 + 719468
  let era := z / 146097
  let doe := z % 146097
  let yoe := (doe - doe / 1460 + doe / 36524 - doe / 146096) / 365
  let doy := doe - (365 * yoe + yoe / 4 - yoe / 100)
  let mp := (5 * doy + 2) / 153
  let d := doy - (153 * mp + 2) / 5 + 1
  let m := if mp < 10 then mp + 3 else mp - 9
  let y := yoe + era * 400 + (if m ≤ 2 then 1 else 0)
  isoYear y ++ "-" ++ padStart (jsIntToString m) 2 '0' ++ "-" ++ padStart (jsIntToString d) 2 '0'

/-- What the page takes from the platform without fixing it here: the conversion to a
number of a string, an array or an object (`ToPrimitive`, then the numeric reading of the
resulting string). -/
structure Platform where
  coerce : Json → JsNum

/-- The abstract operation `ToNumber`. -/
def toNumber (P : Platform) : JsVal → JsNum
  | none => none
  | some Json.null => some 0
  | some (Json.bool b) => some (if b then 1 else 0)
  | some (Json.num q) => some q
  | some j => P.coerce j

/-- Subtraction of numbers. -/
def jsSub : JsNum → JsNum → JsNum
  | some a, some b => some (a - b)
  | _, _ => none

/-- Division of a number by a non-zero constant. -/
def jsDivConst (a : JsNum) (c : ℚ) : JsNum := a.map (fun x => x / c)

/-- The comparison `a >= c`; false on `NaN`. -/
def jsGe : JsNum → ℚ → Bool
  | some a, c => decide (c ≤ a)
  | none, _ => false

/-! ## State of the page -/

/-- The object `opsState.timer`. -/
structure Timer where
  running : Bool
  startTime : JsVal
  interval : Option Nat
  elapsed : Int

/-- A client as loaded from `/api/clients`. -/
structure Client where
  id : Int
  name : String
  hourly_rate : ℚ

/-- The nodes of the timer panel that the handlers read or write. -/
structure Dom where
  timerClientOptions : List String
  timerClientValue : String
  timerClientDisabled : Bool
  timerDescriptionValue : String
  timerDescriptionDisabled : Bool
  btnTimerStartDisplay : String
  btnTimerStopDisplay : String
  timerStatusText : String
  timerClockText : String

/-- The object `data` posted by `createJobFromTimer`; a `client_id` of `none` is `NaN`. -/
structure JobData where
  client_id : Option Int
  job_date : String
  description : String
  hours : ℚ
  hourly_rate : ℚ
  notes : String

/-- A call of `fetch` with a JSON body. -/
structure Request where
  url : String
  method : String
  body : JobData

/-- A toast shown by `showNotification`. -/
structure Notification where
  message : String
  type : String

/-- Everything the handlers of the timer can read or change. -/
structure World where
  /-- The object `opsState.timer`. -/
  timer : Timer
  /-- The array `opsState.clients`. -/
  clients : List Client
  /-- The entries of `localStorage`, key and value. -/
  localStorage : List (String × String)
  dom : Dom
  /-- The handles of the scheduled `setInterval(updateTimerDisplay, 1000)` ticks. -/
  intervals : List Nat
  /-- The handle the next `setInterval` returns. -/
  nextHandle : Nat
  /-- The toasts shown so far, oldest first. -/
  notifications : List Notification
  /-- The requests sent so far, oldest first. -/
  requests : List Request

/-- The state `opsState.timer` of a freshly loaded page. -/
def Timer.initial : Timer :=
  { running := false, startTime := some Json.null, interval := none, elapsed := 0 }

/-- The method `localStorage.getItem`. -/
def getItem (store : List (String × String)) (key : String) : Option String :=
  (store.find? (fun kv => kv.1 = key)).map (fun kv => kv.2)

/-- The method `localStorage.removeItem`. -/
def removeItem (store : List (String × String)) (key : String) : List (String × String) :=
  store.filter (fun kv => kv.1 ≠ key)

/-- The method `localStorage.setItem`. -/
def setItem (store : List (String × String)) (key value : String) : List (String × String) :=
  (key, value) :: removeItem store key

/-- The function `showNotification(message, type)`: one more toast. -/
def showNotification (message type : String) (w : World) : World :=
  { w with notifications := w.notifications ++ [{ message := message, type := type }] }

/-- The call `setInterval(updateTimerDisplay, 1000)`: the new handle and the world in
which the tick is scheduled. -/
def setInterval (w : World) : Nat × World :=
  (w.nextHandle, { w with intervals := w.intervals ++ [w.nextHandle],
                          nextHandle := w.nextHandle + 1 })

/-- The call `clearInterval(handle)`; `null` and unknown handles are ignored. -/
def clearInterval (handle : Option Nat) (w : World) : World :=
  match handle with
  | none => w
  | some id => { w with intervals := w.intervals.filter (fun i => i ≠ id) }

/-! ## The handlers -/

/-- The value `Date.now() - opsState.timer.startTime`. -/
def elapsedMs (P : Platform) (now : Int) (w : World) : JsNum :=
  jsSub (some (now : ℚ)) (toNumber P w.timer.startTime)

/-- The function `startTimer()` called at the instant `now`. -/
def startTimer (now : Int) (w : World) : World :=
  let clientId := w.dom.timerClientValue
  let description := w.dom.timerDescriptionValue
  if clientId = "" then
    showNotification "Please select a client first" "error" w
  else
    let w1 := { w with
      timer := { w.timer with running := true, startTime := some (Json.num (now : ℚ)),
                              elapsed := 0 } }
    let w2 := { w1 with
      localStorage := setItem w1.localStorage "bps_timer"
        (stringifyTimerRecord now clientId description) }
    let w3 := { w2 with
      dom := { w2.dom with
        btnTimerStartDisplay := "none", btnTimerStopDisplay := "",
        timerStatusText := "Running...",
        timerClientDisabled := true, timerDescriptionDisabled := true } }
    let (handle, w4) := setInterval w3
    { w4 with timer := { w4.timer with interval := some handle } }

/-- The object `data` built by `createJobFromTimer(clientId, description, hours, rate)`
when the clock reads `today`.  Numbers are exact here, so `hours * 3600000` is the elapsed
time again; what the rounding of doubles makes of that product is `notesMsDouble`. -/
def jobData (today : Int) (clientId description : String) (hours rate : ℚ) : JobData :=
  let roundedHours : ℚ := (mathRound (hours * 4) : ℚ) / 4
  { client_id := parseInt clientId,
    job_date := isoDate today,
    description := if description = "" then "Timed session" else description,
    hours := roundedHours,
    hourly_rate := rate,
    notes := "Auto-logged from timer (" ++ formatDuration (some (hours * 3600000))
      ++ " actual)" }

/-- The function `createJobFromTimer(clientId, description, hours, rate)` up to its
first `await`: the job is posted to `/api/jobs`. -/
def createJobFromTimer (today : Int) (clientId description : String) (hours rate : ℚ)
    (w : World) : World :=
  { w with requests := w.requests ++
      [{ url := "/api/jobs", method := "POST",
         body := jobData today clientId description hours rate }] }

/-- The function `stopTimer()`; `now` is the reading of `Date.now()` and `today` the
later reading of `new Date()` in `createJobFromTimer`. -/
def stopTimer (P : Platform) (now today : Int) (w : World) : World :=
  if w.timer.running = false then w
  else
    let w1 := clearInterval w.timer.interval w
    let w2 := { w1 with timer := { w1.timer with running := false } }
    let elapsed := elapsedMs P now w2
    let hours := jsDivConst elapsed (1000 * 60 * 60)
    let clientId := w2.dom.timerClientValue
    let description := w2.dom.timerDescriptionValue
    let client := w2.clients.find? (fun c => some c.id = parseInt clientId)
    let w3 := { w2 with localStorage := removeItem w2.localStorage "bps_timer" }
    let w4 := { w3 with
      dom := { w3.dom with
        btnTimerStartDisplay := "", btnTimerStopDisplay := "none",
        timerStatusText := "Stopped - " ++ formatDuration elapsed,
        timerClientDisabled := false, timerDescriptionDisabled := false } }
    match hours with
    | some h =>
      if 1 / 100 ≤ h ∧ clientId ≠ "" then
        createJobFromTimer today clientId description h
          (match client with
           | some c => c.hourly_rate
           | none => 140) w4
      else w4
    | none => w4

/-- The function `updateTimerDisplay()`, the periodic tick, at the instant `now`. -/
def updateTimerDisplay (P : Platform) (now : Int) (w : World) : World :=
  if w.timer.running = false then w
  else { w with dom := { w.dom with timerClockText := formatDuration (elapsedMs P now w) } }

/-- The hours of the jobs posted so far, oldest first. -/
def submittedHours (w : World) : List ℚ :=
  w.requests.map (fun r => r.body.hours)

/-! ## Sample states -/

/-- A platform on which a string, an array or an object converts to `NaN`. -/
def samplePlatform : Platform :=
  { coerce := fun _ => none }

/-- The timer panel of a loaded page with client 7 selected. -/
def sampleDom : Dom :=
  { timerClientOptions := ["", "7"], timerClientValue := "7", timerClientDisabled := false,
    timerDescriptionValue := "Audit", timerDescriptionDisabled := false,
    btnTimerStartDisplay := "", btnTimerStopDisplay := "none",
    timerStatusText := "", timerClockText := "00:00:00" }

/-- A loaded page: no timer runs, client 7 is selected. -/
def sampleIdle : World :=
  { timer := Timer.initial,
    clients := [{ id := 7, name := "Acme", hourly_rate := 120 }],
    localStorage := [], dom := sampleDom, intervals := [], nextHandle := 1,
    notifications := [], requests := [] }

/-- A loaded page on which no client is selected. -/
def sampleNoClient : World :=
  { sampleIdle with dom := { sampleDom with timerClientValue := "" } }

/-- The page after `startTimer` at the instant 0: the timer runs for client 7. -/
def sampleRunning : World :=
  { sampleIdle with
    timer := { running := true, startTime := some (Json.num 0), interval := some 1,
               elapsed := 0 },
    localStorage := [("bps_timer", stringifyTimerRecord 0 "7" "Audit")],
    dom := { sampleDom with
      btnTimerStartDisplay := "none", btnTimerStopDisplay := "",
      timerStatusText := "Running...",
      timerClientDisabled := true, timerDescriptionDisabled := true },
    intervals := [1], nextHandle := 2 }

/-! ## Restoring the timer after a reload: `restoreTimerState`, `populateTimerClients` -/

/-- More that the page takes from the platform without fixing it here: the conversion
to a string (`ToString`) of a value that is not a string, and of a number. -/
structure Rendering where
  valueText : Json → String
  numberText : ℚ → String

/-- The truth value of a JavaScript value in a condition (`ToBoolean`). -/
def truthy : JsVal → Bool
  | none => false
  | some Json.null => false
  | some (Json.bool b) => b
  | some (Json.num q) => decide (q ≠ 0)
  | some (Json.str s) => decide (s ≠ "")
  | some (Json.arr _) => true
  | some (Json.obj _) => true

/-- The property `data.key` of a parsed value other than `null`, for a key that no
prototype defines: the member written last under that key in an object, `undefined`
otherwise. -/
def getProp (data : Json) (key : String) : JsVal :=
  match data with
  | Json.obj kvs => (kvs.reverse.find? (fun kv => kv.1 = key)).map (fun kv => kv.2)
  | _ => none

/-- The string assigned by `element.value = v || ''`. -/
def orEmptyText (R : Rendering) (v : JsVal) : String :=
  match v with
  | some (Json.str s) => s
  | some j => if truthy (some j) then R.valueText j else ""
  | none => ""

/-- The value a `select` element reports after `select.value = value`: the value itself
when one of its options carries it; otherwise no option is selected and the value reads
as the empty string. -/
def setSelectValue (options : List String) (value : String) : String :=
  if value ∈ options then value else ""

/-- The `try` block of `restoreTimerState` on the stored text `saved`; `none` when it
throws (`JSON.parse` rejects the text, or the text is `null`, which has no properties). -/
def restoreTry (P : Platform) (R : Rendering) (now : Int) (saved : String) (w : World) :
    Option World :=
  match JSON_parse saved with
  | none => none
  | some Json.null => none
  | some data =>
    if truthy (getProp data "running") then
      let w1 := { w with
        timer := { w.timer with running := true, startTime := getProp data "startTime" } }
      let w2 := { w1 with
        dom := { w1.dom with
          timerClientValue :=
            setSelectValue w1.dom.timerClientOptions (orEmptyText R (getProp data "clientId")),
          timerDescriptionValue := orEmptyText R (getProp data "description"),
          btnTimerStartDisplay := "none", btnTimerStopDisplay := "",
          timerStatusText := "Running...",
          timerClientDisabled := true, timerDescriptionDisabled := true } }
      let (handle, w3) := setInterval w2
      some (updateTimerDisplay P now { w3 with timer := { w3.timer with interval := some handle } })
    else some w

/-- The function `restoreTimerState()` called at the instant `now`.  The stored text is
absent or empty, or the `try` block runs and a thrown error removes the record.  The
closing `loadTodaySessions()` only reads the job store and is left out. -/
def restoreTimerState (P : Platform) (R : Rendering) (now : Int) (w : World) : World :=
  match getItem w.localStorage "bps_timer" with
  | none => w
  | some saved =>
    if saved = "" then w
    else
      match restoreTry P R now saved w with
      | some w1 => w1
      | none => { w with localStorage := removeItem w.localStorage "bps_timer" }

/-- The function `populateTimerClients()`: the options of the client field are written
anew, the placeholder first, and the placeholder is the selected one. -/
def populateTimerClients (w : World) : World :=
  { w with
    dom := { w.dom with
      timerClientOptions := "" :: w.clients.map (fun c => jsIntToString c.id),
      timerClientValue := "" } }

/-- The function `loadClients()` from the arrival of the client list on. -/
def loadClientsResponse (clients : List Client) (w : World) : World :=
  populateTimerClients { w with clients := clients }

/-! ## The answer of the job store to `createJobFromTimer` -/

/-- How a `fetch` ends: a response with `ok` true, a response with `ok` false, or a
rejection with the message of its error. -/
inductive FetchOutcome where
  | ok
  | notOk
  | failed (message : String)

/-- The method `x.toFixed(2)` on a finite number below `1e21` in magnitude. -/
def toFixed2 (x : ℚ) : String :=
  let n : Nat := (⌊|x| * 100 + 1 / 2⌋).toNat
  (if x < 0 then "-" else "") ++ Nat.repr (n / 100) ++ "." ++ padStart (Nat.repr (n % 100)) 2 '0'

/-- The function `createJobFromTimer(clientId, description, hours, rate)` after its
`await`: a toast for the created job or for the failure.  The refreshes of the
scorecard and of today's sessions only read the job store and are left out. -/
def createJobFromTimerResponse (R : Rendering) (hours rate : ℚ) (outcome : FetchOutcome)
    (w : World) : World :=
  let roundedHours : ℚ := (mathRound (hours * 4) : ℚ) / 4
  match outcome with
  | FetchOutcome.ok =>
    showNotification
      ("Job created: " ++ toFixed2 roundedHours ++ " hrs @ $" ++ R.numberText rate ++
        "/hr = $" ++ toFixed2 (roundedHours * rate)) "success" w
  | FetchOutcome.notOk =>
    showNotification ("Error creating job: " ++ "Failed to create job") "error" w
  | FetchOutcome.failed message =>
    showNotification ("Error creating job: " ++ message) "error" w

/-- A rendering that prints the constant `?` (used only in examples). -/
def sampleRendering : Rendering :=
  { valueText := fun _ => "?", numberText := fun _ => "?" }

/-- A freshly loaded page over the storage left by the sample running timer: nothing
in memory, the client field with its placeholder option only. -/
def sampleReloaded : World :=
  { timer := Timer.initial, clients := [],
    localStorage := sampleRunning.localStorage,
    dom := { timerClientOptions := [""], timerClientValue := "", timerClientDisabled := false,
             timerDescriptionValue := "", timerDescriptionDisabled := false,
             btnTimerStartDisplay := "", btnTimerStopDisplay := "none",
             timerStatusText := "", timerClockText := "00:00:00" },
    intervals := [], nextHandle := 1, notifications := [], requests := [] }

/-! ## Binary64 rounding on the path from milliseconds to hours and back

Everywhere else a number is taken as an exact rational.  That is what the IEEE doubles of
JavaScript compute for the integer arithmetic of the timer, but not for the quotient
`elapsed / 3600000` and the product `hours * 3600000`: both are rounded to the nearest
double.  The definitions below follow these two steps, and the division by 1000 in
`formatDuration`, with that rounding. -/

/-- A non-negative fraction `num / den`, `den` positive. -/
structure Frac where
  num : Nat
  den : Nat
  deriving DecidableEq

/-- The number of binary digits of `n`, for `n` below `2 ^ fuel`. -/
def bitLength : Nat → Nat → Nat
  | 0, _ => 0
  | fuel + 1, n => if n = 0 then 0 else bitLength fuel (n / 2) + 1

/-- The exponent `e` with `2 ^ e ≤ num / den < 2 ^ (e + 1)`, for a positive fraction. -/
def binaryExponent (x : Frac) : Int :=
  let k : Int := (bitLength 2200 x.num : Int) - (bitLength 2200 x.den : Int)
  if k ≥ 0 then
    (if x.den * 2 ^ k.toNat ≤ x.num then k else k - 1)
  else
    (if x.den ≤ x.num * 2 ^ (-k).toNat then k else k - 1)

/-- Round a quotient to the nearest integer, ties to the even one. -/
def roundHalfEven (n d : Nat) : Nat :=
  let q := n / d
  let r := n % d
  if 2 * r < d then q
  else if d < 2 * r then q + 1
  else if q % 2 = 0 then q else q + 1

/-- The double nearest to `x` (round to nearest, ties to even), for `x` zero or in the
range of the normal doubles: a significand of 53 binary digits. -/
def roundDouble (x : Frac) : Frac :=
  if x.num = 0 then { num := 0, den := 1 }
  else
    let e : Int := binaryExponent x - 52
    if e ≥ 0 then
      { num := roundHalfEven x.num (x.den * 2 ^ e.toNat) * 2 ^ e.toNat, den := 1 }
    else
      { num := roundHalfEven (x.num * 2 ^ (-e).toNat) x.den, den := 2 ^ (-e).toNat }

/-- The value `elapsed / (1000 * 60 * 60)` of `stopTimer` as a double, for an elapsed
time of `elapsed` milliseconds. -/
def hoursDouble (elapsed : Nat) : Frac :=
  roundDouble { num := elapsed, den := 1000 * 60 * 60 }

/-- The value `hours * 3600000` of `createJobFromTimer` as a double. -/
def notesMsDouble (hours : Frac) : Frac :=
  roundDouble { num := hours.num * 3600000, den := hours.den }

/-- The function `formatDuration(ms)` on a non-negative double: `ms / 1000` is rounded to
a double before `Math.floor`; the integer arithmetic after it is exact. -/
def formatDurationDouble (ms : Frac) : String :=
  let q := roundDouble { num := ms.num, den := ms.den * 1000 }
  let totalSec := q.num / q.den
  let h := totalSec / 3600
  let m := totalSec % 3600 / 60
  let s := totalSec % 60
  padStart (Nat.repr h) 2 '0' ++ ":" ++ padStart (Nat.repr m) 2 '0' ++ ":"
    ++ padStart (Nat.repr s) 2 '0'

/-! ## Invoicing page (static/js/app.js): invoice status -/

/-- A job as loaded from `/api/jobs`, with the fields that decide its status actions;
an `invoice_status` of `none` is a missing or `null` property. -/
structure Job where
  id : Int
  invoice_status : Option String

/-- One status button of a job card,
`<button class="btn btn-small cssClass" onclick="updateInvoiceStatus(id, 'target')">label</button>`:
its style class, the status that its click asks for, and its label. -/
structure StatusAction where
  cssClass : String
  target : String
  label : String

/-- The value `job.invoice_status || 'draft'` of `renderJobs`. -/
def invoiceStatusOf (job : Job) : String :=
  match job.invoice_status with
  | none => "draft"
  | some s => if s = "" then "draft" else s

/-- The buttons that `renderJobs` puts into `statusActions` for a job, in order. -/
def statusActions (job : Job) : List StatusAction :=
  let invoiceStatus := invoiceStatusOf job
  if invoiceStatus = "draft" then
    [{ cssClass := "btn-status-sent", target := "sent", label := "Mark Sent" }]
  else if invoiceStatus = "sent" then
    [{ cssClass := "btn-status-revert", target := "draft", label := "â†© Draft" },
     { cssClass := "btn-status-paid", target := "paid", label := "Mark Paid" }]
  else if invoiceStatus = "paid" then
    [{ cssClass := "btn-status-revert", target := "sent", label := "â†© Unmark Paid" }]
  else []

/-- A call of `fetch` on the invoicing page; the body is the JSON text sent. -/
structure AppRequest where
  method : String
  url : String
  contentType : String
  body : String

/-- What `updateInvoiceStatus` can read or change on the invoicing page. -/
structure AppWorld where
  /-- The array `appState.jobs`. -/
  jobs : List Job
  /-- The requests sent so far, oldest first. -/
  requests : List AppRequest
  /-- The toasts shown so far, oldest first. -/
  notifications : List Notification

/-- The text `JSON.stringify({invoice_status: newStatus})`. -/
def stringifyStatusBody (newStatus : String) : String :=
  String.mk ([Char.ofNat 123] ++ quoteJSONString "invoice_status" ++ [':'] ++
    quoteJSONString newStatus ++ [Char.ofNat 125])

/-- The function `updateInvoiceStatus(jobId, newStatus)` up to its first `await`. -/
def updateInvoiceStatus (jobId : Int) (newStatus : String) (w : AppWorld) : AppWorld :=
  { w with requests := w.requests ++
      [{ method := "PUT", url := "/api/jobs/" ++ jsIntToString jobId ++ "/status",
         contentType := "application/json", body := stringifyStatusBody newStatus }] }

/-- The function `updateInvoiceStatus(jobId, newStatus)` after its `await`: the jobs are
loaded again (`loadJobs`, a `GET`) and a toast is shown, or the failure is shown. -/
def updateInvoiceStatusResponse (newStatus : String) (outcome : FetchOutcome)
    (w : AppWorld) : AppWorld :=
  match outcome with
  | FetchOutcome.ok =>
    { w with
      requests := w.requests ++
        [{ method := "GET", url := "/api/jobs", contentType := "", body := "" }],
      notifications := w.notifications ++
        [{ message := "Invoice marked as " ++ newStatus, type := "success" }] }
  | FetchOutcome.notOk =>
    { w with notifications := w.notifications ++
        [{ message := "Error updating invoice status: " ++ "Failed to update invoice status",
           type := "error" }] }
  | FetchOutcome.failed message =>
    { w with notifications := w.notifications ++
        [{ message := "Error updating invoice status: " ++ message, type := "error" }] }

/-! ## Ticks and calls of the timer -/

/-- The page after the ticks `updateTimerDisplay()` fired at the instants `ticks`, in
order. -/
def runTicks (P : Platform) (ticks : List Int) (w : World) : World :=
  ticks.foldl (fun v t => updateTimerDisplay P t v) w

/-- The statements of `stopTimer()` that follow `clearInterval(opsState.timer.interval)`,
on the page `w1` that the cancelling leaves: `running` is set to false, the clock is read
and the elapsed time computed, the record is removed, the panel is written and the job
is handed on. -/
def stopTimerAfterCancel (P : Platform) (now today : Int) (w1 : World) : World :=
  let w2 := { w1 with timer := { w1.timer with running := false } }
  let elapsed := elapsedMs P now w2
  let hours := jsDivConst elapsed (1000 * 60 * 60)
  let clientId := w2.dom.timerClientValue
  let description := w2.dom.timerDescriptionValue
  let client := w2.clients.find? (fun c => some c.id = parseInt clientId)
  let w3 := { w2 with localStorage := removeItem w2.localStorage "bps_timer" }
  let w4 := { w3 with
    dom := { w3.dom with
      btnTimerStartDisplay := "", btnTimerStopDisplay := "none",
      timerStatusText := "Stopped - " ++ formatDuration elapsed,
      timerClientDisabled := false, timerDescriptionDisabled := false } }
  match hours with
  | some h =>
    if 1 / 100 ≤ h ∧ clientId ≠ "" then
      createJobFromTimer today clientId description h
        (match client with
         | some c => c.hourly_rate
         | none => 140) w4
    else w4
  | none => w4

/-- A call of one of the three handlers of the timer, with the readings of the clock
that it makes. -/
inductive TimerCall where
  | start (now : Int)
  | stop (now today : Int)
  | tick (now : Int)

/-- The page after one call. -/
def callTimer (P : Platform) (c : TimerCall) (w : World) : World :=
  match c with
  | TimerCall.start now => startTimer now w
  | TimerCall.stop now today => stopTimer P now today w
  | TimerCall.tick now => updateTimerDisplay P now w

/-- The page after a sequence of calls, in order. -/
def runCalls (P : Platform) (calls : List TimerCall) (w : World) : World :=
  calls.foldl (fun v c => callTimer P c v) w

/-- The record under `bps_timer` as `restoreTimerState` would read it: the value that
`JSON.parse` makes of the stored text, `none` when there is no text or no value. -/
def storedRecord (w : World) : Option Json :=
  match getItem w.localStorage "bps_timer" with
  | some saved => JSON_parse saved
  | none => none

/-- Whether a record is stored whose `running` passes the test `if (data.running)` of
`restoreTimerState`. -/
def storedRunning (w : World) : Bool :=
  match storedRecord w with
  | some data => truthy (getProp data "running")
  | none => false

/-- The `startTime` of the stored record; `undefined` when there is none. -/
def storedStartTime (w : World) : JsVal :=
  match storedRecord w with
  | some data => getProp data "startTime"
  | none => none

/-- The two agree about the timer: `running` is the test of the stored record, and the
start times are the same while the timer runs. -/
def InStep (w : World) : Prop :=
  w.timer.running = storedRunning w ∧
  (w.timer.running = true → storedStartTime w = w.timer.startTime)

/-- A stored record that passes the test of `running` has `running` equal to `true`. -/
def StoredTrue (w : World) : Prop :=
  storedRunning w = true →
    ∃ data, storedRecord w = some data ∧ getProp data "running" = some (Json.bool true)

/-! ## Escaping for HTML: `escapeHtml` (ops.js and app.js) -/

/-- The object `map` of `escapeHtml`, keys and values in the order written. -/
def escapeHtmlMap : List (Char × String) :=
  [('&', "&amp;"), ('<', "&lt;"), ('>', "&gt;"), (dq, "&quot;"), (Char.ofNat 39, "&#039;")]

/-- The character class of the pattern of `escapeHtml`: ampersand, less-than,
greater-than, double quote, apostrophe. -/
def isEscapedChar (c : Char) : Bool :=
  c = '&' || c = '<' || c = '>' || c = dq || c = Char.ofNat 39

/-- The text that the replacer `m => map[m]` contributes for the match `m`: the value
under the key, and the text `undefined` for a key that the object lacks. -/
def mapText (map : List (Char × String)) (m : Char) : String :=
  match map.lookup m with
  | some s => s
  | none => "undefined"

/-- The call `text.replace(pattern, m => map[m])` with the global pattern of
`escapeHtml`, on the characters of a string: every match, a single character of the
class, gives way to its replacement and everything else is copied. -/
def replaceEscaped (map : List (Char × String)) : List Char → List Char
  | [] => []
  | c :: cs => (if isEscapedChar c then (mapText map c).data else [c]) ++ replaceEscaped map cs

/-- The function `escapeHtml(text)` of ops.js; `none` when it throws (a truthy value
that is no string has no method `replace`). -/
def escapeHtml (text : JsVal) : Option String :=
  if truthy text then
    match text with
    | some (Json.str s) => some (String.mk (replaceEscaped escapeHtmlMap s.data))
    | _ => none
  else some ""

/-- The function `escapeHtml(text)` of app.js: the same object `map`, written on several
lines, and the same expression. -/
def App.escapeHtml (text : JsVal) : Option String :=
  if truthy text then
    match text with
    | some (Json.str s) => some (String.mk (replaceEscaped escapeHtmlMap s.data))
    | _ => none
  else some ""

/-! ## Invoicing page (static/js/app.js): the job form -/

/-- The function `parseFloat` of the platform, taken as it is: the number that a text
starts with, `NaN` when it starts with none, as the empty text does.  As everywhere here
a number is exact and finite; a text that reads as an infinity is not provided for. -/
structure Numerals where
  /-- The function itself; `none` is `NaN`. -/
  parseFloat : String → JsNum
  /-- The empty text starts with no number. -/
  parseFloat_empty : parseFloat "" = none

/-- The expression `x || 0` on a number: `NaN` and zero give 0. -/
def orZero : JsNum → ℚ
  | some q => q
  | none => 0

/-- The nodes of the job form that `calculateJobTotal` reads or writes. -/
structure JobFormDom where
  jobHoursValue : String
  jobRateValue : String
  jobTotalText : String

/-- The function `calculateJobTotal()`. -/
def calculateJobTotal (N : Numerals) (d : JobFormDom) : JobFormDom :=
  let hours := orZero (N.parseFloat d.jobHoursValue)
  let rate := orZero (N.parseFloat d.jobRateValue)
  let total := hours * rate
  { d with jobTotalText := "$" ++ toFixed2 total }

/-- The entries of the submitted job form, as `formData.get` returns them. -/
structure JobFormEntries where
  client_id : String
  job_date : String
  description : String
  hours : String
  hourly_rate : String
  notes : String

/-- The object `data` sent by `handleJobFormSubmit`; a `client_id` or `hours` of `none`
is `NaN`. -/
structure JobFormData where
  client_id : Option Int
  job_date : String
  description : String
  hours : JsNum
  hourly_rate : ℚ
  notes : String

/-- A call of `fetch` made by `handleJobFormSubmit`. -/
structure JobFormRequest where
  url : String
  method : String
  body : JobFormData

/-- What `handleJobFormSubmit` reads of `appState`, and the requests sent. -/
structure JobFormWorld where
  /-- The array `appState.clients`. -/
  clients : List Client
  /-- The value `appState.currentEditingJob`: `none` is `null`. -/
  currentEditingJob : Option Int
  /-- The requests sent so far, oldest first. -/
  requests : List JobFormRequest

/-- The object `data` that `handleJobFormSubmit` builds from the entries of the form. -/
def jobFormData (N : Numerals) (clients : List Client) (form : JobFormEntries) : JobFormData :=
  let clientId := parseInt form.client_id
  let hours := N.parseFloat form.hours
  let fallback : ℚ :=
    match clients.find? (fun c => some c.id = clientId) with
    | some c => c.hourly_rate
    | none => 140
  let hourlyRate : ℚ :=
    match N.parseFloat form.hourly_rate with
    | none => fallback
    | some r => if r = 0 then fallback else r
  { client_id := clientId,
    job_date := form.job_date,
    description := form.description,
    hours := hours,
    hourly_rate := hourlyRate,
    notes := form.notes }

/-- The function `handleJobFormSubmit(e)` up to its first `await`: the job is sent with
`PUT` to the job being edited, and with `POST` when none is. -/
def handleJobFormSubmit (N : Numerals) (form : JobFormEntries) (w : JobFormWorld) :
    JobFormWorld :=
  let data := jobFormData N w.clients form
  match w.currentEditingJob with
  | some id =>
    if id ≠ 0 then
      { w with requests := w.requests ++
          [{ url := "/api/jobs/" ++ jsIntToString id, method := "PUT", body := data }] }
    else
      { w with requests := w.requests ++ [{ url := "/api/jobs", method := "POST", body := data }] }
  | none =>
    { w with requests := w.requests ++ [{ url := "/api/jobs", method := "POST", body := data }] }

/-- A platform whose `parseFloat` reads the numerals of JSON and nothing else (used only
in examples). -/
def sampleNumerals : Numerals :=
  { parseFloat := fun s =>
      match parseNumber s.data with
      | some (q, _) => some q
      | none => none,
    parseFloat_empty := rfl }

/-- The job form filled in for client 7, with the rate left empty. -/
def sampleJobForm : JobFormEntries :=
  { client_id := "7", job_date := "2024-05-01", description := "Audit", hours := "2",
    hourly_rate := "", notes := "" }

/-- The invoicing page with client 7 loaded and no job being edited. -/
def sampleJobFormWorld : JobFormWorld :=
  { clients := [{ id := 7, name := "Acme", hourly_rate := 120 }],
    currentEditingJob := none, requests := [] }

/-! ## The job store and the invoice status -/

/-- Modelled from the spec: the job record kept by the job store, with the fields that
the invoice lifecycle touches (section 3).  The store is the server behind `/api/jobs`;
its code is not among the sources embedded here.  A date of `none` has not been set. -/
structure JobRecord where
  invoiceStatus : String
  invoiceSentDate : Option String
  invoicePaidDate : Option String

/-- Modelled from the spec: what the job store does with a request for the status
`target` that arrives on the day `today` (section 4.3).  From `draft` to `sent` the sent
date becomes today, from `sent` to `paid` the paid date becomes today; the reversals and
every other request are accepted as they come, the history fields staying as last set. -/
def applyStatus (today target : String) (job : JobRecord) : JobRecord :=
  if job.invoiceStatus = "draft" ∧ target = "sent" then
    { job with invoiceStatus := target, invoiceSentDate := some today }
  else if job.invoiceStatus = "sent" ∧ target = "paid" then
    { job with invoiceStatus := target, invoicePaidDate := some today }
  else { job with invoiceStatus := target }

/-- Modelled from the spec: the status that the job store reads in the body of a status
request (section 6), under the name that `updateInvoiceStatus` gives it,
`invoice_status`; `none` when the body has no such string. -/
def requestedStatus (body : String) : Option String :=
  match JSON_parse body with
  | some data =>
    match getProp data "invoice_status" with
    | some (Json.str s) => some s
    | _ => none
  | none => none

/-- Modelled from the spec: the job store answering `PUT /jobs/{id}/status` on the day
`today` (section 6); a body without a status changes nothing. -/
def putStatus (today : String) (req : AppRequest) (job : JobRecord) : JobRecord :=
  match requestedStatus req.body with
  | some target => applyStatus today target job
  | none => job

/-! ## Decimal numerals and `formatDuration` -/

theorem toDigitsCore_acc (f : ℕ) : ∀ (n : ℕ) (ds : List Char),
    Nat.toDigitsCore 10 f n ds = Nat.toDigitsCore 10 f n [] ++ ds := by
  induction f with
  | zero => intro n ds; simp [Nat.toDigitsCore]
  | succ f ih =>
    intro n ds
    simp only [Nat.toDigitsCore]
    split
    · simp
    · rw [ih (n / 10) (Nat.digitChar (n % 10) :: ds), ih (n / 10) [Nat.digitChar (n % 10)]]
      simp

theorem toDigitsCore_fuel (f : ℕ) : ∀ (g n : ℕ), n < f → n < g →
    Nat.toDigitsCore 10 f n [] = Nat.toDigitsCore 10 g n [] := by
  induction f with
  | zero => intro g n h; omega
  | succ f ih =>
    intro g n hf hg
    obtain ⟨g, rfl⟩ : ∃ k, g = k + 1 := ⟨g - 1, by omega⟩
    simp only [Nat.toDigitsCore]
    split
    · rfl
    · rename_i h
      rw [toDigitsCore_acc f, toDigitsCore_acc g, ih g (n / 10) (by omega) (by omega)]

theorem toDigits_step (n : ℕ) :
    Nat.toDigits 10 n =
      if n < 10 then [Nat.digitChar n] else Nat.toDigits 10 (n / 10) ++ [Nat.digitChar (n % 10)] := by
  by_cases h : n < 10
  · have h0 : n / 10 = 0 := by omega
    have h1 : n % 10 = n := by omega
    simp [h, Nat.toDigits, Nat.toDigitsCore, h0, h1]
  · have h0 : ¬ n / 10 = 0 := by omega
    simp only [h, if_false]
    show Nat.toDigitsCore 10 (n + 1) n [] =
      Nat.toDigitsCore 10 (n / 10 + 1) (n / 10) [] ++ [Nat.digitChar (n % 10)]
    rw [Nat.toDigitsCore]
    simp only [h0, if_false]
    rw [toDigitsCore_acc, toDigitsCore_fuel (n) (n / 10 + 1) (n / 10) (by omega) (by omega)]

theorem digitChar_isDigit (d : ℕ) (h : d < 10) : (Nat.digitChar d).isDigit = true := by
  interval_cases d <;> rfl

theorem digitChar_toNat (d : ℕ) (h : d < 10) : (Nat.digitChar d).toNat - 48 = d := by
  interval_cases d <;> rfl

theorem toDigits_isDigit (n : ℕ) : ∀ c ∈ Nat.toDigits 10 n, c.isDigit = true := by
  induction n using Nat.strong_induction_on with
  | _ n ih =>
    rw [toDigits_step]
    by_cases h : n < 10
    · simp only [h, if_true, List.mem_singleton]
      intro c hc; subst hc; exact digitChar_isDigit n h
    · simp only [h, if_false, List.mem_append, List.mem_singleton]
      intro c hc
      rcases hc with hc | hc
      · exact ih (n / 10) (by omega) c hc
      · subst hc; exact digitChar_isDigit _ (by omega)

theorem digitsValue_append_single (ds : List Char) (c : Char) :
    digitsValue (ds ++ [c]) = digitsValue ds * 10 + (c.toNat - 48) := by
  simp [digitsValue, List.foldl_append]

theorem digitsValue_toDigits (n : ℕ) : digitsValue (Nat.toDigits 10 n) = n := by
  induction n using Nat.strong_induction_on with
  | _ n ih =>
    rw [toDigits_step]
    by_cases h : n < 10
    · simp only [h, if_true]
      simp [digitsValue, digitChar_toNat n h]
    · simp only [h, if_false]
      rw [digitsValue_append_single, ih (n / 10) (by omega), digitChar_toNat _ (by omega)]
      omega

theorem toDigits_length_pos (n : ℕ) : 1 ≤ (Nat.toDigits 10 n).length := by
  rw [toDigits_step]; split <;> simp

theorem toDigits_length_two (n : ℕ) (h : 10 ≤ n) : 2 ≤ (Nat.toDigits 10 n).length := by
  rw [toDigits_step]
  have : ¬ n < 10 := by omega
  simp only [this, if_false, List.length_append, List.length_singleton]
  have := toDigits_length_pos (n / 10)
  omega

theorem toDigits_head_ne_zero (n : ℕ) (h : 0 < n) :
    ∃ c cs, Nat.toDigits 10 n = c :: cs ∧ c ≠ '0' ∧ c.isDigit = true := by
  induction n using Nat.strong_induction_on with
  | _ n ih =>
    rw [toDigits_step]
    by_cases h10 : n < 10
    · simp only [h10, if_true]
      refine ⟨Nat.digitChar n, [], rfl, ?_, digitChar_isDigit n h10⟩
      interval_cases n <;> decide
    · simp only [h10, if_false]
      obtain ⟨c, cs, hc, hne, hd⟩ := ih (n / 10) (by omega) (by omega)
      exact ⟨c, cs ++ [Nat.digitChar (n % 10)], by rw [hc]; rfl, hne, hd⟩


theorem formatDuration_natCast (n : ℕ) :
    formatDuration (some (n : ℚ)) =
      padStart (Nat.repr (n / 1000 / 3600)) 2 '0' ++ ":" ++
      padStart (Nat.repr (n / 1000 % 3600 / 60)) 2 '0' ++ ":" ++
      padStart (Nat.repr (n / 1000 % 60)) 2 '0' := by
  have hfl : (⌊(n : ℚ) / 1000⌋ : Int) = ((n / 1000 : ℕ) : Int) := by
    have := Rat.floor_intCast_div_natCast (n : ℤ) 1000
    simpa using this
  simp only [formatDuration, hfl]
  have h1 : Int.fdiv ((n / 1000 : ℕ) : Int) 3600 = Int.ofNat (n / 1000 / 3600) := by
    rw [Int.fdiv_eq_ediv _ (by norm_num)]; simp
  have h2 : Int.tmod ((n / 1000 : ℕ) : Int) 3600 = ((n / 1000 % 3600 : ℕ) : Int) := by
    rw [Int.tmod_eq_emod (by positivity) (by norm_num)]; simp
  have h3 : Int.fdiv ((n / 1000 % 3600 : ℕ) : Int) 60 = Int.ofNat (n / 1000 % 3600 / 60) := by
    rw [Int.fdiv_eq_ediv _ (by norm_num)]; simp
  have h4 : Int.tmod ((n / 1000 : ℕ) : Int) 60 = Int.ofNat (n / 1000 % 60) := by
    rw [Int.tmod_eq_emod (by positivity) (by norm_num)]; simp
  rw [h1, h2, h3, h4]
  rfl

theorem padStart_repr_data (n : ℕ) :
    (padStart (Nat.repr n) 2 '0').data =
      List.replicate (2 - (Nat.toDigits 10 n).length) '0' ++ Nat.toDigits 10 n := by
  simp [padStart, Nat.repr, String.length, List.asString]

theorem digitsValue_replicate_zero (k : ℕ) (ds : List Char) :
    digitsValue (List.replicate k '0' ++ ds) = digitsValue ds := by
  induction k with
  | zero => simp
  | succ k ih =>
    have : digitsValue ('0' :: (List.replicate k '0' ++ ds)) =
        digitsValue (List.replicate k '0' ++ ds) := by
      simp [digitsValue]
    simpa [List.replicate_succ] using this.trans ih

theorem padStart_repr_isDigit (n : ℕ) : ∀ c ∈ (padStart (Nat.repr n) 2 '0').data, c.isDigit = true := by
  intro c hc
  rw [padStart_repr_data, List.mem_append] at hc
  rcases hc with hc | hc
  · rw [List.eq_of_mem_replicate hc]; rfl
  · exact toDigits_isDigit n c hc

theorem padStart_repr_value (n : ℕ) : digitsValue (padStart (Nat.repr n) 2 '0').data = n := by
  rw [padStart_repr_data, digitsValue_replicate_zero, digitsValue_toDigits]

theorem padStart_repr_length (n : ℕ) : 2 ≤ (padStart (Nat.repr n) 2 '0').data.length := by
  rw [padStart_repr_data]; simp; omega

theorem padStart_repr_two (n : ℕ) (h : n < 100) :
    (padStart (Nat.repr n) 2 '0').data = [Nat.digitChar (n / 10), Nat.digitChar (n % 10)] := by
  interval_cases n <;> rfl

/-- C1: for every integer `ms >= 0`, `formatDuration(ms)` has the form `H:MM:SS` where `H`
is a run of at least two decimal digits and `MM`, `SS` are two decimal digits each, with
values from 0 to 59. -/
theorem formatDuration_shape (ms : ℕ) :
    ∃ (hh : List Char) (m1 m2 s1 s2 : Char),
      (formatDuration (some (ms : ℚ))).data = hh ++ [':', m1, m2, ':', s1, s2] ∧
      2 ≤ hh.length ∧ (∀ c ∈ hh, c.isDigit = true) ∧
      m1.isDigit = true ∧ m2.isDigit = true ∧ s1.isDigit = true ∧ s2.isDigit = true ∧
      digitsValue [m1, m2] ≤ 59 ∧ digitsValue [s1, s2] ≤ 59 := by
  have hm2 := padStart_repr_two _ (by omega : ms / 1000 % 3600 / 60 < 100)
  have hs2 := padStart_repr_two _ (by omega : ms / 1000 % 60 < 100)
  have hmv := padStart_repr_value (ms / 1000 % 3600 / 60)
  have hsv := padStart_repr_value (ms / 1000 % 60)
  rw [hm2] at hmv
  rw [hs2] at hsv
  refine ⟨(padStart (Nat.repr (ms / 1000 / 3600)) 2 '0').data,
    Nat.digitChar (ms / 1000 % 3600 / 60 / 10), Nat.digitChar (ms / 1000 % 3600 / 60 % 10),
    Nat.digitChar (ms / 1000 % 60 / 10), Nat.digitChar (ms / 1000 % 60 % 10), ?_,
    padStart_repr_length _, padStart_repr_isDigit _,
    digitChar_isDigit _ (by omega), digitChar_isDigit _ (by omega),
    digitChar_isDigit _ (by omega), digitChar_isDigit _ (by omega),
    by rw [hmv]; omega, by rw [hsv]; omega⟩
  rw [formatDuration_natCast]
  simp only [String.data_append, hm2, hs2]
  simp

/-- C2: the three fields printed by `formatDuration(ms)`, read as decimal numerals `h`,
`m`, `s`, satisfy `h*3600 + m*60 + s = floor(ms/1000)` with `m < 60` and `s < 60`; the
hours are not reduced modulo 24: 90000000 ms prints as 25:00:00 and 1999 ms as
00:00:01. -/
theorem formatDuration_fields :
    (∀ ms : ℕ, ∃ hh mm ss : List Char,
      (formatDuration (some (ms : ℚ))).data = hh ++ ':' :: (mm ++ ':' :: ss) ∧
      (∀ c ∈ hh ++ mm ++ ss, c.isDigit = true) ∧
      digitsValue hh * 3600 + digitsValue mm * 60 + digitsValue ss = ms / 1000 ∧
      digitsValue mm < 60 ∧ digitsValue ss < 60) ∧
    formatDuration (some 90000000) = "25:00:00" ∧
    formatDuration (some 1999) = "00:00:01" := by
  refine ⟨fun ms => ?_, ?_, ?_⟩
  · refine ⟨(padStart (Nat.repr (ms / 1000 / 3600)) 2 '0').data,
      (padStart (Nat.repr (ms / 1000 % 3600 / 60)) 2 '0').data,
      (padStart (Nat.repr (ms / 1000 % 60)) 2 '0').data, ?_, ?_, ?_, ?_, ?_⟩
    · rw [formatDuration_natCast]; simp [String.data_append]
    · intro c hc
      simp only [List.mem_append] at hc
      rcases hc with (hc | hc) | hc <;> exact padStart_repr_isDigit _ c hc
    · simp only [padStart_repr_value]; omega
    · simp only [padStart_repr_value]; omega
    · simp only [padStart_repr_value]; omega
  · have h := formatDuration_natCast 90000000
    simp only [Nat.cast_ofNat] at h
    rw [h]; decide
  · have h := formatDuration_natCast 1999
    simp only [Nat.cast_ofNat] at h
    rw [h]; decide

/-! ## JSON: reading back what `JSON.stringify` wrote -/

theorem hex4_hexDigit (n : ℕ) (h : n < 32) :
    hex4 '0' '0' (hexDigit (n / 16)) (hexDigit (n % 16)) = some n := by
  interval_cases n <;> rfl

theorem consResult_some (c : Char) (s r : List Char) :
    consResult c (some (s, r)) = some (c :: s, r) := rfl

theorem parseStringBody_dq (fuel : ℕ) (r : List Char) :
    parseStringBody (fuel + 1) (dq :: r) = some ([], r) := by
  rw [parseStringBody.eq_def]; simp

theorem parseStringBody_simple (fuel : ℕ) (e ch : Char) (r : List Char)
    (he : e ≠ 'u') (hs : simpleEscape e = some ch) :
    parseStringBody (fuel + 1) (bs :: e :: r) = consResult ch (parseStringBody fuel r) := by
  have hb : bs ≠ dq := by decide
  rw [parseStringBody.eq_def]
  simp only [hb, if_false, if_true, he, hs]

theorem parseStringBody_literal (fuel : ℕ) (c : Char) (r : List Char)
    (h1 : c ≠ dq) (h2 : c ≠ bs) (h3 : ¬ c.toNat < 32) :
    parseStringBody (fuel + 1) (c :: r) = consResult c (parseStringBody fuel r) := by
  rw [parseStringBody.eq_def]
  simp only [h1, h2, h3, if_false]

theorem parseStringBody_control (fuel : ℕ) (c : Char) (r : List Char) (h : c.toNat < 32) :
    parseStringBody (fuel + 1)
      (bs :: 'u' :: '0' :: '0' :: hexDigit (c.toNat / 16) :: hexDigit (c.toNat % 16) :: r) =
      consResult c (parseStringBody fuel r) := by
  have hb : bs ≠ dq := by decide
  have hs1 : ¬ (0xD800 ≤ c.toNat ∧ c.toNat < 0xDC00) := by omega
  have hs2 : ¬ (0xDC00 ≤ c.toNat ∧ c.toNat < 0xE000) := by omega
  rw [parseStringBody.eq_def]
  simp only [hb, if_false, if_true, hex4_hexDigit c.toNat h, hs1, hs2, Char.ofNat_toNat]

theorem parseStringBody_escape (s : List Char) : ∀ (rest : List Char) (fuel : ℕ),
    (escapeJsonChars s).length < fuel →
    parseStringBody fuel (escapeJsonChars s ++ dq :: rest) = some (s, rest) := by
  induction s with
  | nil =>
    intro rest fuel h
    obtain ⟨fuel, rfl⟩ : ∃ k, fuel = k + 1 := ⟨fuel - 1, by omega⟩
    exact parseStringBody_dq fuel rest
  | cons c cs ih =>
    intro rest fuel h
    obtain ⟨fuel, rfl⟩ : ∃ k, fuel = k + 1 := ⟨fuel - 1, by omega⟩
    simp only [escapeJsonChars, List.length_append] at h
    have hlen : 1 ≤ (escapeJsonChar c).length := by
      unfold escapeJsonChar; split_ifs <;> simp
    have ih' := ih rest fuel (by omega)
    simp only [escapeJsonChars, List.append_assoc]
    unfold escapeJsonChar
    split_ifs with h1 h2 h3 h4 h5 h6 h7 h8 <;> simp only [List.cons_append, List.nil_append]
    · rw [parseStringBody_simple fuel dq dq _ (by decide) (by decide), ih', consResult_some, h1]
    · rw [parseStringBody_simple fuel bs bs _ (by decide) (by decide), ih', consResult_some, h2]
    · rw [parseStringBody_simple fuel 'b' (Char.ofNat 8) _ (by decide) (by decide), ih',
        consResult_some, h3]
    · rw [parseStringBody_simple fuel 'f' (Char.ofNat 12) _ (by decide) (by decide), ih',
        consResult_some, h4]
    · rw [parseStringBody_simple fuel 'n' (Char.ofNat 10) _ (by decide) (by decide), ih',
        consResult_some, h5]
    · rw [parseStringBody_simple fuel 'r' (Char.ofNat 13) _ (by decide) (by decide), ih',
        consResult_some, h6]
    · rw [parseStringBody_simple fuel 't' (Char.ofNat 9) _ (by decide) (by decide), ih',
        consResult_some, h7]
    · rw [parseStringBody_control fuel c _ h8, ih', consResult_some]
    · rw [parseStringBody_literal fuel c _ h1 h2 h8, ih', consResult_some]

theorem spanDigits_append (ds : List Char) (c0 : Char) (r : List Char)
    (hds : ∀ c ∈ ds, c.isDigit = true) (hc0 : c0.isDigit = false) :
    spanDigits (ds ++ c0 :: r) = (ds, c0 :: r) := by
  induction ds with
  | nil => simp [spanDigits, hc0]
  | cons d ds ih =>
    have hd : d.isDigit = true := hds d (by simp)
    have := ih (fun c hc => hds c (by simp [hc]))
    simp [spanDigits, hd, this]

theorem parseUnsigned_toDigits (n : ℕ) (c0 : Char) (r : List Char)
    (hc0 : c0.isDigit = false) (h1 : c0 ≠ '.') (h2 : c0 ≠ 'e') (h3 : c0 ≠ 'E') :
    parseUnsigned (Nat.toDigits 10 n ++ c0 :: r) = some ((n : ℚ), c0 :: r) := by
  have hfrac : parseFracPart (c0 :: r) = some (0, c0 :: r) := by
    simp [parseFracPart, h1]
  have hexp : parseExpPart (c0 :: r) = some (0, c0 :: r) := by
    simp [parseExpPart, h2, h3]
  have hint : parseIntPart (Nat.toDigits 10 n ++ c0 :: r) = some (n, c0 :: r) := by
    rcases Nat.eq_zero_or_pos n with h0 | hpos
    · subst h0
      have : Nat.toDigits 10 0 = ['0'] := by rfl
      simp [this, parseIntPart]
    · obtain ⟨c, cs, hcs, hne, hd⟩ := toDigits_head_ne_zero n hpos
      have hall := toDigits_isDigit n
      have hval := digitsValue_toDigits n
      rw [hcs] at hall hval ⊢
      have hsp := spanDigits_append cs c0 r (fun x hx => hall x (by simp [hx])) hc0
      simp only [List.cons_append, parseIntPart, hne, if_false, hd, if_true, hsp, hval]
  simp [parseUnsigned, hint, hfrac, hexp]

theorem parseNumber_jsIntToString (t : Int) (c0 : Char) (r : List Char)
    (hc0 : c0.isDigit = false) (h1 : c0 ≠ '.') (h2 : c0 ≠ 'e') (h3 : c0 ≠ 'E') :
    parseNumber ((jsIntToString t).data ++ c0 :: r) = some ((t : ℚ), c0 :: r) := by
  cases t with
  | ofNat n =>
    have hu := parseUnsigned_toDigits n c0 r hc0 h1 h2 h3
    obtain ⟨c, cs, hcs⟩ : ∃ c cs, Nat.toDigits 10 n = c :: cs := by
      have := toDigits_length_pos n
      cases hx : Nat.toDigits 10 n with
      | nil => simp [hx] at this
      | cons c cs => exact ⟨c, cs, rfl⟩
    have hcd : c.isDigit = true := toDigits_isDigit n c (by simp [hcs])
    have hne : c ≠ '-' := by
      intro h; subst h; exact absurd hcd (by decide)
    have e : (jsIntToString (Int.ofNat n)).data = c :: cs := by
      simp [jsIntToString, Nat.repr, List.asString, hcs]
    rw [e]
    rw [hcs] at hu
    simp only [List.cons_append] at hu ⊢
    simp [parseNumber, hne, hu]
  | negSucc n =>
    have hu := parseUnsigned_toDigits (n + 1) c0 r hc0 h1 h2 h3
    have e : (jsIntToString (Int.negSucc n)).data = '-' :: Nat.toDigits 10 (n + 1) := by
      simp [jsIntToString, Nat.repr, List.asString]
    rw [e]
    simp only [List.cons_append]
    simp only [parseNumber, if_true, hu]
    simp [Int.negSucc_eq]

theorem jsIntToString_head (t : Int) :
    ∃ c cs, (jsIntToString t).data = c :: cs ∧ (c.isDigit = true ∨ c = '-') := by
  cases t with
  | ofNat n =>
    have := toDigits_length_pos n
    cases hx : Nat.toDigits 10 n with
    | nil => simp [hx] at this
    | cons c cs =>
      exact ⟨c, cs, by simp [jsIntToString, Nat.repr, List.asString, hx],
        Or.inl (toDigits_isDigit n c (by simp [hx]))⟩
  | negSucc n =>
    exact ⟨'-', Nat.toDigits 10 (n + 1), by simp [jsIntToString, Nat.repr, List.asString],
      Or.inr rfl⟩

theorem parseValue_number (fuel : ℕ) (c : Char) (cs : List Char)
    (h : c.isDigit = true ∨ c = '-') :
    parseValue (fuel + 1) (c :: cs) =
      match parseNumber (c :: cs) with
      | some (q, r) => some (Json.num q, r)
      | none => none := by
  have hn : c ≠ 'n' := by rintro rfl; revert h; decide
  have ht : c ≠ 't' := by rintro rfl; revert h; decide
  have hf : c ≠ 'f' := by rintro rfl; revert h; decide
  have hq : c ≠ dq := by rintro rfl; revert h; decide
  have hb : c ≠ '[' := by rintro rfl; revert h; decide
  have ho : c ≠ Char.ofNat 123 := by rintro rfl; revert h; decide
  rw [parseValue.eq_def]
  simp only [hn, ht, hf, hq, hb, ho, if_false]

theorem parseValue_true (fuel : ℕ) (r : List Char) :
    parseValue (fuel + 1) ('t' :: 'r' :: 'u' :: 'e' :: r) = some (Json.bool true, r) := by
  rw [parseValue.eq_def]
  simp [dropLiteral]

theorem parseValue_string (fuel : ℕ) (s r : List Char) :
    parseValue (fuel + 1) (dq :: (escapeJsonChars s ++ dq :: r)) =
      some (Json.str (String.mk s), r) := by
  have h := parseStringBody_escape s r ((escapeJsonChars s ++ dq :: r).length + 1)
    (by simp; omega)
  have hn : dq ≠ 'n' := by decide
  have ht : dq ≠ 't' := by decide
  have hf : dq ≠ 'f' := by decide
  rw [parseValue.eq_def]
  simp only [hn, ht, hf, if_false, if_true, h]

theorem skipWs_cons (c : Char) (r : List Char) (h : isJsonWs c = false) :
    skipWs (c :: r) = c :: r := by
  simp [skipWs, h]

theorem parseMembers_more (fuel : ℕ) (k rest1 rest3 rest4 : List Char) (v : Json)
    (kvs : List (String × Json))
    (hv : parseValue fuel (skipWs rest1) = some (v, ',' :: rest3))
    (hm : parseMembers fuel (skipWs rest3) = some (kvs, rest4)) :
    parseMembers (fuel + 1) (dq :: (escapeJsonChars k ++ dq :: ':' :: rest1)) =
      some ((String.mk k, v) :: kvs, rest4) := by
  have h := parseStringBody_escape k (':' :: rest1)
    ((escapeJsonChars k ++ dq :: ':' :: rest1).length + 1) (by simp; omega)
  rw [parseMembers.eq_def]
  simp only [if_true, h, skipWs_cons ':' rest1 (by decide), hv,
    skipWs_cons ',' rest3 (by decide), hm]

theorem parseMembers_last (fuel : ℕ) (k rest1 rest3 : List Char) (v : Json)
    (hv : parseValue fuel (skipWs rest1) = some (v, Char.ofNat 125 :: rest3)) :
    parseMembers (fuel + 1) (dq :: (escapeJsonChars k ++ dq :: ':' :: rest1)) =
      some ([(String.mk k, v)], rest3) := by
  have h := parseStringBody_escape k (':' :: rest1)
    ((escapeJsonChars k ++ dq :: ':' :: rest1).length + 1) (by simp; omega)
  have hc : Char.ofNat 125 ≠ ',' := by decide
  rw [parseMembers.eq_def]
  simp only [if_true, h, skipWs_cons ':' rest1 (by decide), hv,
    skipWs_cons (Char.ofNat 125) rest3 (by decide), hc, if_false]

theorem isJsonWs_of_digit (c : Char) (h : c.isDigit = true ∨ c = '-') : isJsonWs c = false := by
  have h1 : c ≠ ' ' := by rintro rfl; revert h; decide
  have h2 : c ≠ Char.ofNat 9 := by rintro rfl; revert h; decide
  have h3 : c ≠ Char.ofNat 10 := by rintro rfl; revert h; decide
  have h4 : c ≠ Char.ofNat 13 := by rintro rfl; revert h; decide
  simp [isJsonWs, h1, h2, h3, h4]

theorem JSON_parse_stringifyTimerRecord (t : Int) (clientId description : String) :
    JSON_parse (stringifyTimerRecord t clientId description) =
      some (Json.obj [("running", Json.bool true), ("startTime", Json.num (t : ℚ)),
        ("clientId", Json.str clientId), ("description", Json.str description)]) := by
  obtain ⟨c, cs, hcs, hc⟩ := jsIntToString_head t
  have hnum := fun r => parseNumber_jsIntToString t ',' r (by decide) (by decide) (by decide)
    (by decide)
  rw [hcs] at hnum
  have hlen : 2 ≤ (stringifyTimerRecord t clientId description).length := by
    simp only [String.length, stringifyTimerRecord, quoteJSONString, List.length_append,
      List.length_cons]
    omega
  obtain ⟨k, hk⟩ : ∃ k, 2 * (stringifyTimerRecord t clientId description).length + 2 = k + 6 :=
    ⟨2 * (stringifyTimerRecord t clientId description).length - 4, by omega⟩
  -- the four members, last to first
  have m4 := parseMembers_last (k + 1) "description".data
    (dq :: (escapeJsonChars description.data ++ dq :: [Char.ofNat 125])) [] (Json.str description)
    (by rw [skipWs_cons dq _ (by decide)]; exact parseValue_string k _ _)
  generalize hx4 : (dq :: (escapeJsonChars "description".data ++ dq :: ':' ::
    dq :: (escapeJsonChars description.data ++ dq :: [Char.ofNat 125]))) = x4 at m4
  have m3 := parseMembers_more (k + 2) "clientId".data
    (dq :: (escapeJsonChars clientId.data ++ dq :: ',' :: x4))
    x4 [] (Json.str clientId) _
    (by rw [skipWs_cons dq _ (by decide)]; exact parseValue_string (k + 1) _ _)
    (by rw [← hx4, skipWs_cons dq _ (by decide), hx4]; exact m4)
  generalize hx3 : (dq :: (escapeJsonChars "clientId".data ++ dq :: ':' ::
    dq :: (escapeJsonChars clientId.data ++ dq :: ',' :: x4))) = x3 at m3
  have hv2 : parseValue (k + 3) (skipWs (c :: (cs ++ ',' :: x3))) =
      some (Json.num (t : ℚ), ',' :: x3) := by
    rw [skipWs_cons c _ (isJsonWs_of_digit c hc), parseValue_number _ c _ hc]
    have := hnum x3
    simp only [List.cons_append] at this
    rw [this]
  have m2 := parseMembers_more (k + 3) "startTime".data _ _ [] (Json.num (t : ℚ)) _ hv2
    (by rw [← hx3, skipWs_cons dq _ (by decide), hx3]; exact m3)
  generalize hx2 : (dq :: (escapeJsonChars "startTime".data ++ dq :: ':' ::
    c :: (cs ++ ',' :: x3))) = x2 at m2
  have m1 := parseMembers_more (k + 4) "running".data
    ('t' :: 'r' :: 'u' :: 'e' :: ',' :: x2) x2 [] (Json.bool true) _
    (by rw [skipWs_cons 't' _ (by decide)]; exact parseValue_true (k + 3) _)
    (by rw [← hx2, skipWs_cons dq _ (by decide), hx2]; exact m2)
  generalize hx1 : (dq :: (escapeJsonChars "running".data ++ dq :: ':' ::
    't' :: 'r' :: 'u' :: 'e' :: ',' :: x2)) = x1 at m1
  have htext : (stringifyTimerRecord t clientId description).data = Char.ofNat 123 :: x1 := by
    rw [← hx1, ← hx2, ← hx3, ← hx4]
    simp only [stringifyTimerRecord, quoteJSONString, hcs, List.append_assoc, List.cons_append,
      List.nil_append, List.singleton_append]
  have hx1' : skipWs x1 = x1 := by rw [← hx1, skipWs_cons dq _ (by decide)]
  have hx1'' : ∃ r, x1 = dq :: r := ⟨_, hx1.symm⟩
  obtain ⟨r1, hr1⟩ := hx1''
  unfold JSON_parse
  rw [hk, htext, skipWs_cons (Char.ofNat 123) _ (by decide), parseValue.eq_def]
  have e1 : Char.ofNat 123 ≠ 'n' := by decide
  have e2 : Char.ofNat 123 ≠ 't' := by decide
  have e3 : Char.ofNat 123 ≠ 'f' := by decide
  have e4 : Char.ofNat 123 ≠ dq := by decide
  have e5 : Char.ofNat 123 ≠ '[' := by decide
  have e6 : dq ≠ Char.ofNat 125 := by decide
  simp only [e1, e2, e3, e4, e5, if_false, if_true, hx1']
  rw [hr1] at m1 ⊢
  simp only [e6, if_false, m1, skipWs, if_true]

/-! ## Job materialisation: `createJobFromTimer` -/

theorem mathRound_close (x : ℚ) : |(mathRound x : ℚ) - x| ≤ 1 / 2 := by
  unfold mathRound
  have h1 := Int.floor_le (x + 1 / 2)
  have h2 := Int.lt_floor_add_one (x + 1 / 2)
  rw [abs_le]
  constructor <;> linarith

theorem mathRound_half (k : ℕ) : mathRound (((k : ℚ) / 4 + 1 / 8) * 4) = (k : ℤ) + 1 := by
  unfold mathRound
  rw [Int.floor_eq_iff]
  push_cast
  constructor <;> linarith

theorem submittedHours_createJobFromTimer (today : Int) (clientId description : String)
    (hours rate : ℚ) (w : World) :
    submittedHours (createJobFromTimer today clientId description hours rate w) =
      submittedHours w ++ [(mathRound (hours * 4) : ℚ) / 4] := by
  simp [submittedHours, createJobFromTimer, jobData]

/-- C3: the hours submitted by `createJobFromTimer` are `round(hours*4)/4`, an integer
multiple of 0.25 at most 0.125 away from the hours handed in (for every `hours`, in
particular every `hours >= 0`). -/
theorem createJobFromTimer_quarter_hours (today : Int) (clientId description : String)
    (hours rate : ℚ) (w : World) :
    ∃ billed : ℚ,
      submittedHours (createJobFromTimer today clientId description hours rate w) =
        submittedHours w ++ [billed] ∧
      billed = (mathRound (hours * 4) : ℚ) / 4 ∧
      (∃ k : ℤ, billed = (k : ℚ) * (1 / 4)) ∧
      |billed - hours| ≤ 1 / 8 := by
  refine ⟨(mathRound (hours * 4) : ℚ) / 4, submittedHours_createJobFromTimer _ _ _ _ _ _, rfl,
    ⟨mathRound (hours * 4), by ring⟩, ?_⟩
  have h := mathRound_close (hours * 4)
  rw [abs_le] at h ⊢
  constructor <;> linarith [h.1, h.2]

/-- C4: quarter-hour rounding in `createJobFromTimer` is round-half-up: `k/4 + 1/8` hours
are billed as `(k+1)/4`; 0.125 is billed as 0.25, 0.83 as 0.75 and 0.90 as 1.00. -/
theorem createJobFromTimer_half_up (today : Int) (clientId description : String) (rate : ℚ)
    (w : World) :
    (∀ k : ℕ, submittedHours
        (createJobFromTimer today clientId description ((k : ℚ) / 4 + 1 / 8) rate w) =
      submittedHours w ++ [((k : ℚ) + 1) / 4]) ∧
    submittedHours (createJobFromTimer today clientId description (1 / 8) rate w) =
      submittedHours w ++ [1 / 4] ∧
    submittedHours (createJobFromTimer today clientId description (83 / 100) rate w) =
      submittedHours w ++ [3 / 4] ∧
    submittedHours (createJobFromTimer today clientId description (9 / 10) rate w) =
      submittedHours w ++ [1] := by
  refine ⟨fun k => ?_, ?_, ?_, ?_⟩
  · rw [submittedHours_createJobFromTimer, mathRound_half]; push_cast; rfl
  · rw [submittedHours_createJobFromTimer]
    have : mathRound ((1 / 8 : ℚ) * 4) = 1 := by
      unfold mathRound; rw [Int.floor_eq_iff]; norm_num
    rw [this]; norm_num
  · rw [submittedHours_createJobFromTimer]
    have : mathRound ((83 / 100 : ℚ) * 4) = 3 := by
      unfold mathRound; rw [Int.floor_eq_iff]; norm_num
    rw [this]; norm_num
  · rw [submittedHours_createJobFromTimer]
    have : mathRound ((9 / 10 : ℚ) * 4) = 4 := by
      unfold mathRound; rw [Int.floor_eq_iff]; norm_num
    rw [this]; norm_num

/-! ## The timer: `startTimer` and `stopTimer` -/

theorem getItem_setItem (store : List (String × String)) (key value : String) :
    getItem (setItem store key value) key = some value := by
  simp [getItem, setItem]

theorem getItem_removeItem (store : List (String × String)) (key : String) :
    getItem (removeItem store key) key = none := by
  simp [getItem, removeItem, List.find?_eq_none]

theorem filter_setItem (store : List (String × String)) (key value : String) :
    (setItem store key value).filter (fun kv => kv.1 = key) = [(key, value)] := by
  simp [setItem, removeItem, List.filter_cons, List.filter_filter]

theorem hours_gate (e : ℚ) : (1 / 100 ≤ e / (1000 * 60 * 60)) ↔ 36000 ≤ e := by
  rw [le_div_iff₀ (by norm_num)]
  constructor <;> intro h <;> linarith

/-- The world in which `stopTimer` finds a running timer, field by field. -/
theorem stopTimer_running (P : Platform) (now today : Int) (w : World) (e : ℚ)
    (hrun : w.timer.running = true) (he : elapsedMs P now w = some e) :
    stopTimer P now today w =
      { timer := { w.timer with running := false },
        clients := w.clients,
        localStorage := removeItem w.localStorage "bps_timer",
        dom := { w.dom with
          btnTimerStartDisplay := "", btnTimerStopDisplay := "none",
          timerStatusText := "Stopped - " ++ formatDuration (some e),
          timerClientDisabled := false, timerDescriptionDisabled := false },
        intervals := (clearInterval w.timer.interval w).intervals,
        nextHandle := w.nextHandle,
        notifications := w.notifications,
        requests :=
          if 36000 ≤ e ∧ w.dom.timerClientValue ≠ "" then
            w.requests ++
              [{ url := "/api/jobs", method := "POST",
                 body := jobData today w.dom.timerClientValue w.dom.timerDescriptionValue
                   (e / 3600000)
                   (match w.clients.find?
                      (fun c => some c.id = parseInt w.dom.timerClientValue) with
                    | some c => c.hourly_rate
                    | none => 140) }]
          else w.requests } := by
  have he' : elapsedMs P now
      { (clearInterval w.timer.interval w) with
        timer := { (clearInterval w.timer.interval w).timer with running := false } } = some e := by
    rw [← he]; cases hi : w.timer.interval <;> simp [elapsedMs, clearInterval]
  have hc : ∀ h : Option Nat, (clearInterval h w).timer = w.timer ∧
      (clearInterval h w).clients = w.clients ∧
      (clearInterval h w).localStorage = w.localStorage ∧ (clearInterval h w).dom = w.dom ∧
      (clearInterval h w).nextHandle = w.nextHandle ∧
      (clearInterval h w).notifications = w.notifications ∧
      (clearInterval h w).requests = w.requests := by
    intro h; cases h <;> simp [clearInterval]
  obtain ⟨c1, c2, c3, c4, c5, c6, c7⟩ := hc w.timer.interval
  unfold stopTimer
  simp only [hrun, Bool.true_eq_false, if_false, he', jsDivConst, Option.map_some']
  simp only [hours_gate, c1, c2, c3, c4, c5, c6, c7]
  by_cases hg : 36000 ≤ e ∧ w.dom.timerClientValue ≠ ""
  · simp only [hg, and_self, if_true, createJobFromTimer, c7, ne_eq, not_false_eq_true]
    norm_num
  · simp only [hg, if_false]

theorem elapsedMs_sampleRunning (now : Int) :
    elapsedMs samplePlatform now sampleRunning = some (now : ℚ) := by
  simp [elapsedMs, sampleRunning, toNumber, jsSub]

/-- C5: a running timer stopped after less than 36000 ms submits no job and shows no
error; stopped after 36000 ms or more with a client selected it submits exactly one job
(36000 ms itself is enough). -/
theorem stopTimer_minimum_duration (P : Platform) (now today : Int) (w : World) (e : ℚ)
    (hrun : w.timer.running = true) (he : elapsedMs P now w = some e) :
    (e < 36000 →
      (stopTimer P now today w).requests = w.requests ∧
      (stopTimer P now today w).notifications = w.notifications) ∧
    (36000 ≤ e → w.dom.timerClientValue ≠ "" →
      ∃ r : Request, (stopTimer P now today w).requests = w.requests ++ [r] ∧
        r.url = "/api/jobs" ∧ r.method = "POST") := by
  rw [stopTimer_running P now today w e hrun he]
  constructor
  · intro h
    have : ¬ (36000 ≤ e ∧ w.dom.timerClientValue ≠ "") := fun hh => absurd hh.1 (not_le.mpr h)
    simp only [this, if_false, and_self]
  · intro h hc
    simp only [h, hc, ne_eq, not_false_eq_true, and_self, if_true]
    exact ⟨_, rfl, rfl, rfl⟩

/-- The sample timer stopped at exactly 36000 ms: one job is posted. -/
theorem stopTimer_minimum_duration_witness :
    (sampleRunning.timer.running = true ∧
      elapsedMs samplePlatform 36000 sampleRunning = some 36000) ∧
    ((36000 : ℚ) < 36000 →
      (stopTimer samplePlatform 36000 36000 sampleRunning).requests = sampleRunning.requests ∧
      (stopTimer samplePlatform 36000 36000 sampleRunning).notifications =
        sampleRunning.notifications) ∧
    ((36000 : ℚ) ≤ 36000 → sampleRunning.dom.timerClientValue ≠ "" →
      ∃ r : Request, (stopTimer samplePlatform 36000 36000 sampleRunning).requests =
          sampleRunning.requests ++ [r] ∧
        r.url = "/api/jobs" ∧ r.method = "POST") :=
  ⟨⟨rfl, elapsedMs_sampleRunning 36000⟩,
    stopTimer_minimum_duration samplePlatform 36000 36000 sampleRunning 36000 rfl
      (elapsedMs_sampleRunning 36000)⟩

/-- C6: `startTimer` with no client selected shows an error notification and changes
nothing else: `opsState.timer`, the storage, the scheduled ticks and the panel are as
before. -/
theorem startTimer_no_client (now : Int) (w : World) (h : w.dom.timerClientValue = "") :
    startTimer now w =
      { w with notifications :=
          w.notifications ++ [{ message := "Please select a client first", type := "error" }] } ∧
    (startTimer now w).timer = w.timer ∧
    (startTimer now w).localStorage = w.localStorage ∧
    (startTimer now w).intervals = w.intervals := by
  simp [startTimer, h, showNotification]

/-- The sample page without a client: `startTimer` only shows the error. -/
theorem startTimer_no_client_witness :
    sampleNoClient.dom.timerClientValue = "" ∧
    (startTimer 5 sampleNoClient =
      { sampleNoClient with notifications :=
          sampleNoClient.notifications ++
            [{ message := "Please select a client first", type := "error" }] } ∧
    (startTimer 5 sampleNoClient).timer = sampleNoClient.timer ∧
    (startTimer 5 sampleNoClient).localStorage = sampleNoClient.localStorage ∧
    (startTimer 5 sampleNoClient).intervals = sampleNoClient.intervals) :=
  ⟨rfl, startTimer_no_client 5 sampleNoClient rfl⟩

/-- The world left by a successful `startTimer`, field by field. -/
theorem startTimer_selected (now : Int) (w : World) (h : w.dom.timerClientValue ≠ "") :
    startTimer now w =
      { timer := { running := true, startTime := some (Json.num (now : ℚ)),
                   interval := some w.nextHandle, elapsed := 0 },
        clients := w.clients,
        localStorage := setItem w.localStorage "bps_timer"
          (stringifyTimerRecord now w.dom.timerClientValue w.dom.timerDescriptionValue),
        dom := { w.dom with
          btnTimerStartDisplay := "none", btnTimerStopDisplay := "",
          timerStatusText := "Running...",
          timerClientDisabled := true, timerDescriptionDisabled := true },
        intervals := w.intervals ++ [w.nextHandle],
        nextHandle := w.nextHandle + 1,
        notifications := w.notifications,
        requests := w.requests } := by
  simp [startTimer, h, setInterval]

/-- C7: with a client selected, `startTimer` at the instant `now` leaves `running = true`,
`startTime = now`, `elapsed = 0`, and under the key `bps_timer` a text that `JSON.parse`
reads as exactly `{running: true, startTime: now, clientId, description}`. -/
theorem startTimer_persists (now : Int) (w : World) (h : w.dom.timerClientValue ≠ "") :
    (startTimer now w).timer.running = true ∧
    (startTimer now w).timer.startTime = some (Json.num (now : ℚ)) ∧
    (startTimer now w).timer.elapsed = 0 ∧
    ∃ text : String, getItem (startTimer now w).localStorage "bps_timer" = some text ∧
      JSON_parse text = some (Json.obj [("running", Json.bool true),
        ("startTime", Json.num (now : ℚ)),
        ("clientId", Json.str w.dom.timerClientValue),
        ("description", Json.str w.dom.timerDescriptionValue)]) := by
  rw [startTimer_selected now w h]
  exact ⟨rfl, rfl, rfl, _, getItem_setItem _ _ _, JSON_parse_stringifyTimerRecord _ _ _⟩

/-- The sample page started at the instant 1730000000000. -/
theorem startTimer_persists_witness :
    sampleIdle.dom.timerClientValue ≠ "" ∧
    ((startTimer 1730000000000 sampleIdle).timer.running = true ∧
    (startTimer 1730000000000 sampleIdle).timer.startTime =
      some (Json.num ((1730000000000 : Int) : ℚ)) ∧
    (startTimer 1730000000000 sampleIdle).timer.elapsed = 0 ∧
    ∃ text : String,
      getItem (startTimer 1730000000000 sampleIdle).localStorage "bps_timer" = some text ∧
      JSON_parse text = some (Json.obj [("running", Json.bool true),
        ("startTime", Json.num ((1730000000000 : Int) : ℚ)),
        ("clientId", Json.str sampleIdle.dom.timerClientValue),
        ("description", Json.str sampleIdle.dom.timerDescriptionValue)])) :=
  ⟨by decide, startTimer_persists 1730000000000 sampleIdle (by decide)⟩

/-- C8: `stopTimer` on a timer that does not run changes nothing: state, storage, panel,
notifications and requests are as before. -/
theorem stopTimer_not_running (P : Platform) (now today : Int) (w : World)
    (h : w.timer.running = false) : stopTimer P now today w = w := by
  simp [stopTimer, h]

/-- The sample idle page is left as it is by `stopTimer`. -/
theorem stopTimer_not_running_witness :
    sampleIdle.timer.running = false ∧ stopTimer samplePlatform 5 5 sampleIdle = sampleIdle :=
  ⟨rfl, stopTimer_not_running samplePlatform 5 5 sampleIdle rfl⟩

theorem elapsedMs_num (P : Platform) (now : Int) (w : World) (t0 : ℚ)
    (h : w.timer.startTime = some (Json.num t0)) :
    elapsedMs P now w = some ((now : ℚ) - t0) := by
  simp [elapsedMs, h, toNumber, jsSub]

/-- C9 (as amended): for a running timer with start time `t0`, `stopTimer` at the instant
`now` sets `running = false`, deletes the `bps_timer` record and shows the status
`Stopped - ` followed by `formatDuration(now - t0)`; when `now - t0 >= 36000` and a client
is selected it hands the hours `(now - t0)/3600000`, with the client id and description of
the timer form, to `createJobFromTimer`, and otherwise it submits nothing. -/
theorem stopTimer_hands_over (P : Platform) (now today : Int) (w : World) (t0 : ℚ)
    (hrun : w.timer.running = true) (hstart : w.timer.startTime = some (Json.num t0)) :
    (stopTimer P now today w).timer.running = false ∧
    getItem (stopTimer P now today w).localStorage "bps_timer" = none ∧
    (stopTimer P now today w).dom.timerStatusText =
      "Stopped - " ++ formatDuration (some ((now : ℚ) - t0)) ∧
    (36000 ≤ (now : ℚ) - t0 → w.dom.timerClientValue ≠ "" →
      ∃ ws : World, ws.requests = w.requests ∧ ws.timer.running = false ∧
        stopTimer P now today w =
          createJobFromTimer today w.dom.timerClientValue w.dom.timerDescriptionValue
            (((now : ℚ) - t0) / 3600000)
            (match w.clients.find? (fun c => some c.id = parseInt w.dom.timerClientValue) with
             | some c => c.hourly_rate
             | none => 140) ws) ∧
    (¬ (36000 ≤ (now : ℚ) - t0 ∧ w.dom.timerClientValue ≠ "") →
      (stopTimer P now today w).requests = w.requests) := by
  have hs := stopTimer_running P now today w _ hrun (elapsedMs_num P now w t0 hstart)
  refine ⟨by rw [hs], by rw [hs]; exact getItem_removeItem _ _, by rw [hs], ?_, ?_⟩
  · intro hg hc
    refine ⟨{ (stopTimer P now today w) with requests := w.requests }, rfl, by rw [hs], ?_⟩
    rw [hs]
    simp only [hg, hc, ne_eq, not_false_eq_true, and_self, if_true, createJobFromTimer]
  · intro hg
    rw [hs]
    simp only [hg, if_false]

/-- The sample timer stopped after 90 minutes. -/
theorem stopTimer_hands_over_witness :
    (sampleRunning.timer.running = true ∧
      sampleRunning.timer.startTime = some (Json.num 0)) ∧
    ((stopTimer samplePlatform 5400000 5400000 sampleRunning).timer.running = false ∧
    getItem (stopTimer samplePlatform 5400000 5400000 sampleRunning).localStorage "bps_timer" =
      none ∧
    (stopTimer samplePlatform 5400000 5400000 sampleRunning).dom.timerStatusText =
      "Stopped - " ++ formatDuration (some (((5400000 : Int) : ℚ) - 0)) ∧
    (36000 ≤ ((5400000 : Int) : ℚ) - 0 → sampleRunning.dom.timerClientValue ≠ "" →
      ∃ ws : World, ws.requests = sampleRunning.requests ∧ ws.timer.running = false ∧
        stopTimer samplePlatform 5400000 5400000 sampleRunning =
          createJobFromTimer 5400000 sampleRunning.dom.timerClientValue
            sampleRunning.dom.timerDescriptionValue
            ((((5400000 : Int) : ℚ) - 0) / 3600000)
            (match sampleRunning.clients.find?
               (fun c => some c.id = parseInt sampleRunning.dom.timerClientValue) with
             | some c => c.hourly_rate
             | none => 140) ws) ∧
    (¬ (36000 ≤ ((5400000 : Int) : ℚ) - 0 ∧ sampleRunning.dom.timerClientValue ≠ "") →
      (stopTimer samplePlatform 5400000 5400000 sampleRunning).requests =
        sampleRunning.requests)) :=
  ⟨⟨rfl, rfl⟩, stopTimer_hands_over samplePlatform 5400000 5400000 sampleRunning 0 rfl rfl⟩

/-- C9, counterexample: the sample timer, started at 0 for client 7 and stopped at 1000 ms,
is stopped (`running = false`, record deleted) but nothing is handed to job
materialisation: no request is made. -/
theorem stopTimer_short_session_counterexample :
    sampleRunning.timer.running = true ∧
    sampleRunning.timer.startTime = some (Json.num 0) ∧
    sampleRunning.dom.timerClientValue = "7" ∧
    (stopTimer samplePlatform 1000 1000 sampleRunning).timer.running = false ∧
    getItem (stopTimer samplePlatform 1000 1000 sampleRunning).localStorage "bps_timer" = none ∧
    (stopTimer samplePlatform 1000 1000 sampleRunning).requests = [] := by
  have hs := stopTimer_running samplePlatform 1000 1000 sampleRunning 1000 rfl
    (elapsedMs_sampleRunning 1000)
  refine ⟨rfl, rfl, rfl, by rw [hs], by rw [hs]; exact getItem_removeItem _ _, ?_⟩
  rw [hs]
  have : ¬ ((36000 : ℚ) ≤ 1000 ∧ sampleRunning.dom.timerClientValue ≠ "") := by norm_num
  simp only [this, if_false]
  rfl

/-- C10 (as amended): `startTimer` does not look at `running`.  Called while a timer runs,
with a client selected, it starts over: `startTime` becomes the current instant, the
`bps_timer` record is overwritten, and one more tick is scheduled next to the earlier
ones.  What keeps a second start away is the page: the start button is hidden.  The store
holds one `bps_timer` record. -/
theorem startTimer_while_running (now : Int) (w : World) (hrun : w.timer.running = true)
    (hc : w.dom.timerClientValue ≠ "") :
    (startTimer now w).timer.running = true ∧
    (startTimer now w).timer.startTime = some (Json.num (now : ℚ)) ∧
    getItem (startTimer now w).localStorage "bps_timer" =
      some (stringifyTimerRecord now w.dom.timerClientValue w.dom.timerDescriptionValue) ∧
    ((startTimer now w).localStorage.filter (fun kv => kv.1 = "bps_timer")).length = 1 ∧
    (startTimer now w).intervals = w.intervals ++ [w.nextHandle] ∧
    (startTimer now w).timer.interval = some w.nextHandle ∧
    (startTimer now w).dom.btnTimerStartDisplay = "none" := by
  have _ := hrun
  rw [startTimer_selected now w hc]
  refine ⟨rfl, rfl, getItem_setItem _ _ _, ?_, rfl, rfl, rfl⟩
  simp only [filter_setItem, List.length_singleton]

/-- The sample running timer started a second time at 5000 ms. -/
theorem startTimer_while_running_witness :
    (sampleRunning.timer.running = true ∧ sampleRunning.dom.timerClientValue ≠ "") ∧
    ((startTimer 5000 sampleRunning).timer.running = true ∧
    (startTimer 5000 sampleRunning).timer.startTime = some (Json.num ((5000 : Int) : ℚ)) ∧
    getItem (startTimer 5000 sampleRunning).localStorage "bps_timer" =
      some (stringifyTimerRecord 5000 sampleRunning.dom.timerClientValue
        sampleRunning.dom.timerDescriptionValue) ∧
    ((startTimer 5000 sampleRunning).localStorage.filter
      (fun kv => kv.1 = "bps_timer")).length = 1 ∧
    (startTimer 5000 sampleRunning).intervals = sampleRunning.intervals ++
      [sampleRunning.nextHandle] ∧
    (startTimer 5000 sampleRunning).timer.interval = some sampleRunning.nextHandle ∧
    (startTimer 5000 sampleRunning).dom.btnTimerStartDisplay = "none") :=
  ⟨⟨rfl, by decide⟩, startTimer_while_running 5000 sampleRunning rfl (by decide)⟩

/-- C10, counterexample: on the sample timer, running since 0 with its tick scheduled,
`startTimer` at 5000 ms is not a no-op: it moves `startTime` to 5000, rewrites the stored
record and leaves two ticks scheduled. -/
theorem startTimer_while_running_counterexample :
    sampleRunning.timer.running = true ∧
    sampleRunning.dom.timerClientValue = "7" ∧
    (startTimer 5000 sampleRunning).timer.startTime ≠ sampleRunning.timer.startTime ∧
    getItem (startTimer 5000 sampleRunning).localStorage "bps_timer" ≠
      getItem sampleRunning.localStorage "bps_timer" ∧
    sampleRunning.intervals = [1] ∧
    (startTimer 5000 sampleRunning).intervals = [1, 2] := by
  have hc : sampleRunning.dom.timerClientValue ≠ "" := by decide
  have hs := startTimer_selected 5000 sampleRunning hc
  refine ⟨rfl, rfl, ?_, ?_, rfl, by rw [hs]; rfl⟩
  · rw [hs]
    simp [sampleRunning]
  · rw [hs]
    simp only [getItem_setItem]
    decide

/-! ## Restoring the timer: `restoreTimerState` -/

theorem restoreTimerState_unparsable (P : Platform) (R : Rendering) (now : Int) (w : World)
    (saved : String) (hs : getItem w.localStorage "bps_timer" = some saved)
    (hne : saved ≠ "") (hp : JSON_parse saved = none) :
    restoreTimerState P R now w =
      { w with localStorage := removeItem w.localStorage "bps_timer" } := by
  simp [restoreTimerState, hs, hne, restoreTry, hp]

theorem restoreTimerState_absent (P : Platform) (R : Rendering) (now : Int) (w : World)
    (hs : getItem w.localStorage "bps_timer" = none) :
    restoreTimerState P R now w = w := by
  simp [restoreTimerState, hs]

theorem restoreTimerState_empty (P : Platform) (R : Rendering) (now : Int) (w : World)
    (hs : getItem w.localStorage "bps_timer" = some "") :
    restoreTimerState P R now w = w := by
  simp [restoreTimerState, hs]

/-- C11 (as amended): on a stored `bps_timer` text that is not empty and that `JSON.parse`
rejects, `restoreTimerState` throws nothing, leaves `opsState.timer` as it was (so
`running` stays false) and removes the record: the outcome is the one reached from the
same page without a record.  An empty stored text is taken for a missing one and is left
in place. -/
theorem restoreTimerState_discards_unparsable (P : Platform) (R : Rendering) (now : Int)
    (w : World) (saved : String) (hs : getItem w.localStorage "bps_timer" = some saved)
    (hne : saved ≠ "") (hp : JSON_parse saved = none) :
    (restoreTimerState P R now w).timer = w.timer ∧
    getItem (restoreTimerState P R now w).localStorage "bps_timer" = none ∧
    restoreTimerState P R now w =
      restoreTimerState P R now
        { w with localStorage := removeItem w.localStorage "bps_timer" } ∧
    (∀ v : World, getItem v.localStorage "bps_timer" = some "" →
      restoreTimerState P R now v = v) := by
  rw [restoreTimerState_unparsable P R now w saved hs hne hp]
  refine ⟨rfl, getItem_removeItem _ _, ?_, fun v hv => restoreTimerState_empty P R now v hv⟩
  rw [restoreTimerState_absent P R now _ (getItem_removeItem _ _)]

/-- The sample page over a store whose `bps_timer` text is `oops`. -/
theorem restoreTimerState_discards_unparsable_witness :
    (getItem ({ sampleIdle with localStorage := [("bps_timer", "oops")] } : World).localStorage
        "bps_timer" = some "oops" ∧ "oops" ≠ "" ∧ JSON_parse "oops" = none) ∧
    ((restoreTimerState samplePlatform sampleRendering 5
        { sampleIdle with localStorage := [("bps_timer", "oops")] }).timer =
        ({ sampleIdle with localStorage := [("bps_timer", "oops")] } : World).timer ∧
    getItem (restoreTimerState samplePlatform sampleRendering 5
        { sampleIdle with localStorage := [("bps_timer", "oops")] }).localStorage
        "bps_timer" = none ∧
    restoreTimerState samplePlatform sampleRendering 5
        { sampleIdle with localStorage := [("bps_timer", "oops")] } =
      restoreTimerState samplePlatform sampleRendering 5
        { ({ sampleIdle with localStorage := [("bps_timer", "oops")] } : World) with
          localStorage := removeItem
            ({ sampleIdle with localStorage := [("bps_timer", "oops")] } : World).localStorage
            "bps_timer" } ∧
    (∀ v : World, getItem v.localStorage "bps_timer" = some "" →
      restoreTimerState samplePlatform sampleRendering 5 v = v)) :=
  ⟨⟨rfl, by decide, rfl⟩,
    restoreTimerState_discards_unparsable samplePlatform sampleRendering 5
      { sampleIdle with localStorage := [("bps_timer", "oops")] } "oops" rfl (by decide) rfl⟩

/-- C11, counterexample: the empty text stored under `bps_timer` fails to parse, yet
`restoreTimerState` returns before parsing and the record stays in the store. -/
theorem restoreTimerState_empty_record_counterexample :
    JSON_parse "" = none ∧
    getItem ({ sampleIdle with localStorage := [("bps_timer", "")] } : World).localStorage
      "bps_timer" = some "" ∧
    getItem (restoreTimerState samplePlatform sampleRendering 5
      { sampleIdle with localStorage := [("bps_timer", "")] }).localStorage "bps_timer" =
      some "" := by
  refine ⟨rfl, rfl, ?_⟩
  rw [restoreTimerState_empty samplePlatform sampleRendering 5
    { sampleIdle with localStorage := [("bps_timer", "")] } rfl]
  rfl

theorem stringifyTimerRecord_ne_empty (t : Int) (clientId description : String) :
    stringifyTimerRecord t clientId description ≠ "" := by
  intro h
  have := congrArg String.length h
  simp only [String.length, stringifyTimerRecord, quoteJSONString, List.length_append,
    List.length_cons] at this
  simp at this

/-- The page that `restoreTimerState` leaves when the store holds the record written by
`startTimer` at `t0`, field by field. -/
theorem restoreTimerState_record (P : Platform) (R : Rendering) (now t0 : Int) (w : World)
    (clientId description : String)
    (hs : getItem w.localStorage "bps_timer" =
      some (stringifyTimerRecord t0 clientId description)) :
    restoreTimerState P R now w =
      { timer := { w.timer with running := true, startTime := some (Json.num (t0 : ℚ)),
                                interval := some w.nextHandle },
        clients := w.clients,
        localStorage := w.localStorage,
        dom := { w.dom with
          timerClientValue := setSelectValue w.dom.timerClientOptions clientId,
          timerDescriptionValue := description,
          btnTimerStartDisplay := "none", btnTimerStopDisplay := "",
          timerStatusText := "Running...",
          timerClientDisabled := true, timerDescriptionDisabled := true,
          timerClockText := formatDuration (some ((now : ℚ) - (t0 : ℚ))) },
        intervals := w.intervals ++ [w.nextHandle],
        nextHandle := w.nextHandle + 1,
        notifications := w.notifications,
        requests := w.requests } := by
  simp [restoreTimerState, hs, stringifyTimerRecord_ne_empty, restoreTry,
    JSON_parse_stringifyTimerRecord, getProp, truthy, orEmptyText, setInterval,
    updateTimerDisplay, elapsedMs, toNumber, jsSub]

theorem clearInterval_requests (h : Option Nat) (w : World) :
    (clearInterval h w).requests = w.requests := by
  cases h <;> rfl

theorem clearInterval_dom (h : Option Nat) (w : World) :
    (clearInterval h w).dom = w.dom := by
  cases h <;> rfl

/-- With an empty client field `stopTimer` submits nothing, whatever the elapsed time. -/
theorem stopTimer_without_client (P : Platform) (now today : Int) (w : World)
    (h : w.dom.timerClientValue = "") :
    (stopTimer P now today w).requests = w.requests := by
  unfold stopTimer
  by_cases hr : w.timer.running = false
  · simp [hr]
  · simp only [hr, if_false]
    cases he : jsDivConst (elapsedMs P now
        { (clearInterval w.timer.interval w) with
          timer := { (clearInterval w.timer.interval w).timer with running := false } })
        (1000 * 60 * 60) with
    | none => simp [clearInterval_requests]
    | some x => simp [clearInterval_requests, clearInterval_dom, h]

/-- After `populateTimerClients` the client field is empty, so a following `stopTimer`
submits nothing. -/
theorem stopTimer_after_populateTimerClients (P : Platform) (now today : Int) (w : World) :
    (populateTimerClients w).dom.timerClientValue = "" ∧
    (stopTimer P now today (populateTimerClients w)).requests = w.requests := by
  refine ⟨rfl, ?_⟩
  rw [stopTimer_without_client P now today (populateTimerClients w) rfl]
  rfl

/-- A restart in general: over the record written by `startTimer` at `t0`, whatever the
freshly loaded page `f` and the instants, `restoreTimerState` followed by the arrival of
the client list and by `stopTimer` at `t2` shows the time elapsed since `t0` and submits
nothing. -/
theorem stopTimer_after_restart (P : Platform) (R : Rendering) (t0 t1 t2 today : Int)
    (f : World) (clientId description : String) (clients : List Client)
    (hs : getItem f.localStorage "bps_timer" =
      some (stringifyTimerRecord t0 clientId description)) :
    (stopTimer P t2 today
      (loadClientsResponse clients (restoreTimerState P R t1 f))).dom.timerStatusText =
      "Stopped - " ++ formatDuration (some ((t2 : ℚ) - (t0 : ℚ))) ∧
    (stopTimer P t2 today
      (loadClientsResponse clients (restoreTimerState P R t1 f))).requests = f.requests := by
  have h := restoreTimerState_record P R t1 t0 f clientId description hs
  constructor
  · have hst := stopTimer_running P t2 today
      (loadClientsResponse clients (restoreTimerState P R t1 f)) ((t2 : ℚ) - (t0 : ℚ))
      (by rw [h]; rfl)
      (by rw [h]; simp [loadClientsResponse, populateTimerClients, elapsedMs, toNumber, jsSub])
    rw [hst]
  · unfold loadClientsResponse
    rw [(stopTimer_after_populateTimerClients _ _ _ _).2, h]

theorem formatDuration_ninety_minutes : formatDuration (some 5400000) = "01:30:00" := by
  have h := formatDuration_natCast 5400000
  simp only [Nat.cast_ofNat] at h
  rw [h]; decide

/-- C12, at the failing input: the store holds the record of the sample timer (client 7,
description Audit, started at 0) and the page is freshly loaded, its client field
holding the placeholder option only.  `restoreTimerState` brings back `running`,
`startTime = 0` and the description, but the client field reads empty, not 7. -/
theorem restoreTimerState_loses_client :
    getItem sampleReloaded.localStorage "bps_timer" =
      some (stringifyTimerRecord 0 "7" "Audit") ∧
    sampleReloaded.timer = Timer.initial ∧
    (restoreTimerState samplePlatform sampleRendering 10000 sampleReloaded).timer.running =
      true ∧
    (restoreTimerState samplePlatform sampleRendering 10000 sampleReloaded).timer.startTime =
      some (Json.num 0) ∧
    (restoreTimerState samplePlatform sampleRendering 10000
      sampleReloaded).dom.timerDescriptionValue = "Audit" ∧
    (restoreTimerState samplePlatform sampleRendering 10000
      sampleReloaded).dom.timerClientValue = "" := by
  have h := restoreTimerState_record samplePlatform sampleRendering 10000 0 sampleReloaded
    "7" "Audit" rfl
  refine ⟨rfl, rfl, by rw [h], by rw [h]; simp, by rw [h], by rw [h]; decide⟩

/-- C13, at the failing input: the sample timer (client 7, started at 0) is restored at
10 s on a freshly loaded page, the client list arrives and `populateTimerClients` runs,
and the timer is stopped at 90 minutes.  The elapsed time shown is 01:30:00, counted from
the stored start, but the client field is empty and no job is submitted.  The same
happens when the fresh page already lists client 7 in its client field. -/
theorem stopTimer_after_reload_submits_nothing :
    (stopTimer samplePlatform 5400000 5400000
      (loadClientsResponse [{ id := 7, name := "Acme", hourly_rate := 120 }]
        (restoreTimerState samplePlatform sampleRendering 10000
          sampleReloaded))).dom.timerStatusText = "Stopped - 01:30:00" ∧
    (loadClientsResponse [{ id := 7, name := "Acme", hourly_rate := 120 }]
        (restoreTimerState samplePlatform sampleRendering 10000
          sampleReloaded)).dom.timerClientValue = "" ∧
    (stopTimer samplePlatform 5400000 5400000
      (loadClientsResponse [{ id := 7, name := "Acme", hourly_rate := 120 }]
        (restoreTimerState samplePlatform sampleRendering 10000
          sampleReloaded))).requests = [] ∧
    (restoreTimerState samplePlatform sampleRendering 10000
        { sampleReloaded with
          dom := { sampleReloaded.dom with timerClientOptions := ["", "7"] } }
      ).dom.timerClientValue = "7" ∧
    (stopTimer samplePlatform 5400000 5400000
      (loadClientsResponse [{ id := 7, name := "Acme", hourly_rate := 120 }]
        (restoreTimerState samplePlatform sampleRendering 10000
          { sampleReloaded with
            dom := { sampleReloaded.dom with timerClientOptions := ["", "7"] } }))).requests =
      [] := by
  have h := restoreTimerState_record samplePlatform sampleRendering 10000 0 sampleReloaded
    "7" "Audit" rfl
  have h' := restoreTimerState_record samplePlatform sampleRendering 10000 0
    { sampleReloaded with dom := { sampleReloaded.dom with timerClientOptions := ["", "7"] } }
    "7" "Audit" rfl
  refine ⟨?_, rfl, ?_, by rw [h']; decide, ?_⟩
  · have hs := stopTimer_running samplePlatform 5400000 5400000
      (loadClientsResponse [{ id := 7, name := "Acme", hourly_rate := 120 }]
        (restoreTimerState samplePlatform sampleRendering 10000 sampleReloaded)) 5400000
      (by rw [h]; rfl)
      (by rw [h]; simp [loadClientsResponse, populateTimerClients, elapsedMs, toNumber, jsSub])
    rw [hs]
    simp only [formatDuration_ninety_minutes]
    rfl
  · unfold loadClientsResponse
    rw [(stopTimer_after_populateTimerClients _ _ _ _).2, h]
    rfl
  · unfold loadClientsResponse
    rw [(stopTimer_after_populateTimerClients _ _ _ _).2, h']
    rfl

/-! ## From start to job -/

theorem spanDigits_all (ds : List Char) (hds : ∀ c ∈ ds, c.isDigit = true) :
    spanDigits ds = (ds, []) := by
  induction ds with
  | nil => rfl
  | cons d ds ih =>
    have hd : d.isDigit = true := hds d (by simp)
    have := ih (fun c hc => hds c (by simp [hc]))
    simp [spanDigits, hd, this]

theorem isJsWhitespace_of_digit (c : Char) (h : c.isDigit = true ∨ c = '-') :
    isJsWhitespace c = false := by
  rcases h with h | h
  · have h1 : 48 ≤ c.toNat ∧ c.toNat ≤ 57 := by
      simp only [Char.isDigit, Bool.and_eq_true, decide_eq_true_eq] at h
      exact ⟨by have := h.1; exact this, by have := h.2; exact this⟩
    simp only [isJsWhitespace, Bool.or_eq_false_iff, decide_eq_false_iff_not, Bool.and_eq_false_iff]
    omega
  · subst h; decide

theorem parseIntDigits_toDigits (n : ℕ) : parseIntDigits (Nat.toDigits 10 n) = some n := by
  have hall := toDigits_isDigit n
  have hval := digitsValue_toDigits n
  have hsp := spanDigits_all _ hall
  rcases Nat.eq_zero_or_pos n with h0 | hpos
  · subst h0; rfl
  · obtain ⟨c, cs, hcs, hne, hd⟩ := toDigits_head_ne_zero n hpos
    rw [hcs] at hsp hval
    rw [hcs, parseIntDigits.eq_def]
    split
    · rename_i x rest heq
      simp only [List.cons.injEq] at heq
      exact absurd heq.1 hne
    · simp only [hsp, hval]

theorem parseInt_jsIntToString (t : Int) : parseInt (jsIntToString t) = some t := by
  cases t with
  | ofNat n =>
    obtain ⟨c, cs, hcs⟩ : ∃ c cs, Nat.toDigits 10 n = c :: cs := by
      have := toDigits_length_pos n
      cases hx : Nat.toDigits 10 n with
      | nil => simp [hx] at this
      | cons c cs => exact ⟨c, cs, rfl⟩
    have hcd : c.isDigit = true := toDigits_isDigit n c (by simp [hcs])
    have hw := isJsWhitespace_of_digit c (Or.inl hcd)
    have hm : c ≠ '-' := by rintro rfl; exact absurd hcd (by decide)
    have hp : c ≠ '+' := by rintro rfl; exact absurd hcd (by decide)
    have e : (jsIntToString (Int.ofNat n)).data = c :: cs := by
      simp [jsIntToString, Nat.repr, List.asString, hcs]
    have hd := parseIntDigits_toDigits n
    rw [hcs] at hd
    unfold parseInt
    rw [e]
    simp only [List.dropWhile, hw]
    split
    · rename_i rest heq
      simp only [List.cons.injEq] at heq
      exact absurd heq.1 hm
    · rename_i rest heq
      simp only [List.cons.injEq] at heq
      exact absurd heq.1 hp
    · simp [hd]
  | negSucc n =>
    have e : (jsIntToString (Int.negSucc n)).data = '-' :: Nat.toDigits 10 (n + 1) := by
      simp [jsIntToString, Nat.repr, List.asString]
    have hw : isJsWhitespace '-' = false := by decide
    unfold parseInt
    rw [e]
    simp only [List.dropWhile, hw, parseIntDigits_toDigits, Option.map_some']
    simp [Int.negSucc_eq]

theorem jsIntToString_ne_empty (t : Int) : jsIntToString t ≠ "" := by
  obtain ⟨c, cs, hcs, _⟩ := jsIntToString_head t
  intro h
  rw [h] at hcs
  simp at hcs

theorem find_client (clients : List Client) (A : Client) (hA : A ∈ clients)
    (huniq : ∀ c ∈ clients, c.id = A.id → c = A) :
    clients.find? (fun c => some c.id = some A.id) = some A := by
  cases hf : clients.find? (fun c => some c.id = some A.id) with
  | none =>
    rw [List.find?_eq_none] at hf
    have := hf A hA
    simp at this
  | some c =>
    have hp := List.find?_some hf
    have hm := List.mem_of_find?_eq_some hf
    simp only [Option.some.injEq, decide_eq_true_eq] at hp
    rw [huniq c hm hp]

theorem mathRound_six : mathRound ((5400000 : ℚ) / 3600000 * 4) = 6 := by
  unfold mathRound
  rw [Int.floor_eq_iff]
  norm_num

/-- C14: a timer started for client `A` at `t0` and stopped at `t0 + 5400000` submits one
job, with `client_id = A.id`, `hours = 1.5`, notes `Auto-logged from timer (01:30:00
actual)` and `hourly_rate` the rate of `A`, so that hours times rate is `1.5 * A.hourly_rate`.
The notes are the same when the hours are computed in doubles. -/
theorem timer_ninety_minutes (P : Platform) (t0 today : Int) (w : World) (A : Client)
    (hA : A ∈ w.clients) (huniq : ∀ c ∈ w.clients, c.id = A.id → c = A)
    (hsel : w.dom.timerClientValue = jsIntToString A.id) :
    (∃ r : Request,
      (stopTimer P (t0 + 5400000) today (startTimer t0 w)).requests = w.requests ++ [r] ∧
      r.url = "/api/jobs" ∧ r.method = "POST" ∧
      r.body.client_id = some A.id ∧
      r.body.hours = 3 / 2 ∧
      r.body.notes = "Auto-logged from timer (01:30:00 actual)" ∧
      r.body.hourly_rate = A.hourly_rate ∧
      r.body.hours * r.body.hourly_rate = 3 / 2 * A.hourly_rate) ∧
    formatDurationDouble (notesMsDouble (hoursDouble 5400000)) = "01:30:00" := by
  refine ⟨?_, by decide⟩
  have hne : w.dom.timerClientValue ≠ "" := by rw [hsel]; exact jsIntToString_ne_empty _
  have h1 := startTimer_selected t0 w hne
  have hs := stopTimer_running P (t0 + 5400000) today (startTimer t0 w) 5400000
    (by rw [h1])
    (by rw [h1]; simp [elapsedMs, toNumber, jsSub])
  have hcv : (startTimer t0 w).dom.timerClientValue = jsIntToString A.id := by
    rw [h1]; exact hsel
  have hcl : (startTimer t0 w).clients = w.clients := by rw [h1]
  have hrq : (startTimer t0 w).requests = w.requests := by rw [h1]
  have hg : (36000 : ℚ) ≤ 5400000 ∧ jsIntToString A.id ≠ "" :=
    ⟨by norm_num, jsIntToString_ne_empty _⟩
  rw [hs, hcv, hcl, hrq, parseInt_jsIntToString, find_client w.clients A hA huniq, if_pos hg]
  refine ⟨_, rfl, rfl, rfl, ?_, ?_, ?_, rfl, ?_⟩
  · simp [jobData, parseInt_jsIntToString]
  · simp only [jobData, mathRound_six]; norm_num
  · simp only [jobData]
    have : ((5400000 : ℚ) / 3600000 * 3600000) = 5400000 := by norm_num
    rw [this, formatDuration_ninety_minutes]
    decide
  · simp only [jobData, mathRound_six]; norm_num

/-- The sample page: client 7 (Acme, 120 an hour) timed from 0 to 90 minutes. -/
theorem timer_ninety_minutes_witness :
    (({ id := 7, name := "Acme", hourly_rate := 120 } : Client) ∈ sampleIdle.clients ∧
      (∀ c ∈ sampleIdle.clients,
        c.id = ({ id := 7, name := "Acme", hourly_rate := 120 } : Client).id →
        c = { id := 7, name := "Acme", hourly_rate := 120 }) ∧
      sampleIdle.dom.timerClientValue =
        jsIntToString ({ id := 7, name := "Acme", hourly_rate := 120 } : Client).id) ∧
    ((∃ r : Request,
      (stopTimer samplePlatform (0 + 5400000) 5400000 (startTimer 0 sampleIdle)).requests =
        sampleIdle.requests ++ [r] ∧
      r.url = "/api/jobs" ∧ r.method = "POST" ∧
      r.body.client_id = some ({ id := 7, name := "Acme", hourly_rate := 120 } : Client).id ∧
      r.body.hours = 3 / 2 ∧
      r.body.notes = "Auto-logged from timer (01:30:00 actual)" ∧
      r.body.hourly_rate = ({ id := 7, name := "Acme", hourly_rate := 120 } : Client).hourly_rate ∧
      r.body.hours * r.body.hourly_rate =
        3 / 2 * ({ id := 7, name := "Acme", hourly_rate := 120 } : Client).hourly_rate) ∧
    formatDurationDouble (notesMsDouble (hoursDouble 5400000)) = "01:30:00") :=
  ⟨⟨by simp [sampleIdle], by simp [sampleIdle], by decide⟩,
    timer_ninety_minutes samplePlatform 0 5400000 sampleIdle
      { id := 7, name := "Acme", hourly_rate := 120 } (by simp [sampleIdle])
      (by simp [sampleIdle]) (by decide)⟩

/-- C15, at the failing input: a session of 65000 ms passes the gate (its hours, as a
double, are at least the double 0.01).  The status shows `formatDuration(65000)`, that is
00:01:05; the notes show `formatDuration(hours * 3600000)`, and in doubles
`65000 / 3600000 * 3600000` is 64999.99999999999, so the notes say 00:01:04. -/
theorem notes_one_second_short :
    (roundDouble { num := 1, den := 100 }).num * (hoursDouble 65000).den ≤
      (hoursDouble 65000).num * (roundDouble { num := 1, den := 100 }).den ∧
    formatDurationDouble { num := 65000, den := 1 } = "00:01:05" ∧
    notesMsDouble (hoursDouble 65000) = { num := 8933531975679999, den := 137438953472 } ∧
    8933531975679999 < 65000 * 137438953472 ∧
    formatDurationDouble (notesMsDouble (hoursDouble 65000)) = "00:01:04" := by
  decide

/-! ## When the job store refuses -/

theorem createJobFromTimerResponse_storage (R : Rendering) (hours rate : ℚ)
    (outcome : FetchOutcome) (w : World) :
    (createJobFromTimerResponse R hours rate outcome w).localStorage = w.localStorage ∧
    (createJobFromTimerResponse R hours rate outcome w).timer = w.timer ∧
    (createJobFromTimerResponse R hours rate outcome w).dom = w.dom ∧
    (createJobFromTimerResponse R hours rate outcome w).requests = w.requests := by
  cases outcome <;> simp [createJobFromTimerResponse, showNotification]

/-- C16 (as amended): when the job submitted by `stopTimer` is refused (response not OK)
or the request fails, the failure is shown in an error toast, and that is all: the
`bps_timer` record was removed by `stopTimer` before the request left and is not put back,
and no further request is made.  What is left of the session is on the page: the
`Stopped - ` status with the duration and the client and description fields. -/
theorem stopTimer_failure_keeps_no_record (P : Platform) (R : Rendering) (now today : Int)
    (w : World) (e : ℚ) (message : String)
    (hrun : w.timer.running = true) (he : elapsedMs P now w = some e)
    (hgate : 36000 ≤ e) (hc : w.dom.timerClientValue ≠ "") :
    getItem (stopTimer P now today w).localStorage "bps_timer" = none ∧
    (∃ r : Request, (stopTimer P now today w).requests = w.requests ++ [r]) ∧
    (createJobFromTimerResponse R (e / 3600000)
        (match w.clients.find? (fun c => some c.id = parseInt w.dom.timerClientValue) with
         | some c => c.hourly_rate
         | none => 140) FetchOutcome.notOk (stopTimer P now today w) =
      showNotification "Error creating job: Failed to create job" "error"
        (stopTimer P now today w)) ∧
    (createJobFromTimerResponse R (e / 3600000)
        (match w.clients.find? (fun c => some c.id = parseInt w.dom.timerClientValue) with
         | some c => c.hourly_rate
         | none => 140) (FetchOutcome.failed message) (stopTimer P now today w) =
      showNotification ("Error creating job: " ++ message) "error"
        (stopTimer P now today w)) ∧
    (∀ (hours rate : ℚ) (outcome : FetchOutcome),
      getItem (createJobFromTimerResponse R hours rate outcome
        (stopTimer P now today w)).localStorage "bps_timer" = none ∧
      (createJobFromTimerResponse R hours rate outcome (stopTimer P now today w)).requests =
        (stopTimer P now today w).requests ∧
      (createJobFromTimerResponse R hours rate outcome
        (stopTimer P now today w)).dom.timerStatusText =
        "Stopped - " ++ formatDuration (some e) ∧
      (createJobFromTimerResponse R hours rate outcome
        (stopTimer P now today w)).dom.timerClientValue = w.dom.timerClientValue ∧
      (createJobFromTimerResponse R hours rate outcome
        (stopTimer P now today w)).dom.timerDescriptionValue = w.dom.timerDescriptionValue) := by
  have hs := stopTimer_running P now today w e hrun he
  have hst : getItem (stopTimer P now today w).localStorage "bps_timer" = none := by
    rw [hs]; exact getItem_removeItem _ _
  refine ⟨hst, ?_, rfl, rfl, ?_⟩
  · rw [hs]
    simp only [hgate, hc, ne_eq, not_false_eq_true, and_self, if_true]
    exact ⟨_, rfl⟩
  · intro hours rate outcome
    obtain ⟨h1, _, h3, h4⟩ := createJobFromTimerResponse_storage R hours rate outcome
      (stopTimer P now today w)
    rw [h1, h3, h4]
    refine ⟨hst, rfl, ?_, ?_, ?_⟩ <;> rw [hs]

/-- The sample timer stopped after 90 minutes, the job store answering with an error. -/
theorem stopTimer_failure_keeps_no_record_witness :
    (sampleRunning.timer.running = true ∧
      elapsedMs samplePlatform 5400000 sampleRunning = some 5400000 ∧
      (36000 : ℚ) ≤ 5400000 ∧ sampleRunning.dom.timerClientValue ≠ "") ∧
    (getItem (stopTimer samplePlatform 5400000 5400000 sampleRunning).localStorage
        "bps_timer" = none ∧
    (∃ r : Request, (stopTimer samplePlatform 5400000 5400000 sampleRunning).requests =
      sampleRunning.requests ++ [r]) ∧
    (createJobFromTimerResponse sampleRendering (5400000 / 3600000)
        (match sampleRunning.clients.find?
            (fun c => some c.id = parseInt sampleRunning.dom.timerClientValue) with
         | some c => c.hourly_rate
         | none => 140) FetchOutcome.notOk
        (stopTimer samplePlatform 5400000 5400000 sampleRunning) =
      showNotification "Error creating job: Failed to create job" "error"
        (stopTimer samplePlatform 5400000 5400000 sampleRunning)) ∧
    (createJobFromTimerResponse sampleRendering (5400000 / 3600000)
        (match sampleRunning.clients.find?
            (fun c => some c.id = parseInt sampleRunning.dom.timerClientValue) with
         | some c => c.hourly_rate
         | none => 140) (FetchOutcome.failed "Failed to fetch")
        (stopTimer samplePlatform 5400000 5400000 sampleRunning) =
      showNotification ("Error creating job: " ++ "Failed to fetch") "error"
        (stopTimer samplePlatform 5400000 5400000 sampleRunning)) ∧
    (∀ (hours rate : ℚ) (outcome : FetchOutcome),
      getItem (createJobFromTimerResponse sampleRendering hours rate outcome
        (stopTimer samplePlatform 5400000 5400000 sampleRunning)).localStorage
        "bps_timer" = none ∧
      (createJobFromTimerResponse sampleRendering hours rate outcome
        (stopTimer samplePlatform 5400000 5400000 sampleRunning)).requests =
        (stopTimer samplePlatform 5400000 5400000 sampleRunning).requests ∧
      (createJobFromTimerResponse sampleRendering hours rate outcome
        (stopTimer samplePlatform 5400000 5400000 sampleRunning)).dom.timerStatusText =
        "Stopped - " ++ formatDuration (some 5400000) ∧
      (createJobFromTimerResponse sampleRendering hours rate outcome
        (stopTimer samplePlatform 5400000 5400000 sampleRunning)).dom.timerClientValue =
        sampleRunning.dom.timerClientValue ∧
      (createJobFromTimerResponse sampleRendering hours rate outcome
        (stopTimer samplePlatform 5400000 5400000 sampleRunning)).dom.timerDescriptionValue =
        sampleRunning.dom.timerDescriptionValue)) :=
  ⟨⟨rfl, elapsedMs_sampleRunning 5400000, by norm_num, by decide⟩,
    stopTimer_failure_keeps_no_record samplePlatform sampleRendering 5400000 5400000
      sampleRunning 5400000 "Failed to fetch" rfl (elapsedMs_sampleRunning 5400000)
      (by norm_num) (by decide)⟩

/-- C16, counterexample: the sample timer holds its record under `bps_timer`; once
`stopTimer` has run the record is gone, before any answer of the job store, and after a
refusal the store still has no record while an error toast is shown. -/
theorem stopTimer_failure_counterexample :
    getItem sampleRunning.localStorage "bps_timer" =
      some (stringifyTimerRecord 0 "7" "Audit") ∧
    getItem (stopTimer samplePlatform 5400000 5400000 sampleRunning).localStorage
      "bps_timer" = none ∧
    getItem (createJobFromTimerResponse sampleRendering (3 / 2) 120 FetchOutcome.notOk
      (stopTimer samplePlatform 5400000 5400000 sampleRunning)).localStorage
      "bps_timer" = none ∧
    (createJobFromTimerResponse sampleRendering (3 / 2) 120 FetchOutcome.notOk
      (stopTimer samplePlatform 5400000 5400000 sampleRunning)).notifications =
      [{ message := "Error creating job: Failed to create job", type := "error" }] := by
  have hs := stopTimer_running samplePlatform 5400000 5400000 sampleRunning 5400000 rfl
    (elapsedMs_sampleRunning 5400000)
  have hst : getItem (stopTimer samplePlatform 5400000 5400000 sampleRunning).localStorage
      "bps_timer" = none := by
    rw [hs]; exact getItem_removeItem _ _
  refine ⟨rfl, hst, ?_, ?_⟩
  · rw [(createJobFromTimerResponse_storage _ _ _ _ _).1]; exact hst
  · simp only [createJobFromTimerResponse, showNotification]
    rw [hs]
    rfl

/-! ## Rate and date of the job -/

/-- C17: the job submitted by `stopTimer` carries the hourly rate of the client whose id
is `parseInt(clientId)` (the first such client of the list), and the constant 140 when no
client of the list has that id. -/
theorem stopTimer_hourly_rate (P : Platform) (now today : Int) (w : World) (e : ℚ)
    (hrun : w.timer.running = true) (he : elapsedMs P now w = some e)
    (hgate : 36000 ≤ e) (hc : w.dom.timerClientValue ≠ "") :
    ∃ r : Request, (stopTimer P now today w).requests = w.requests ++ [r] ∧
      ((∃ c ∈ w.clients, some c.id = parseInt w.dom.timerClientValue) →
        ∃ c ∈ w.clients, some c.id = parseInt w.dom.timerClientValue ∧
          w.clients.find? (fun c => some c.id = parseInt w.dom.timerClientValue) = some c ∧
          r.body.hourly_rate = c.hourly_rate) ∧
      ((∀ c ∈ w.clients, some c.id ≠ parseInt w.dom.timerClientValue) →
        r.body.hourly_rate = 140) := by
  rw [stopTimer_running P now today w e hrun he]
  simp only [hgate, hc, ne_eq, not_false_eq_true, and_self, if_true]
  refine ⟨_, rfl, ?_, ?_⟩
  · rintro ⟨c0, hm0, hid0⟩
    cases hf : w.clients.find? (fun c => some c.id = parseInt w.dom.timerClientValue) with
    | none =>
      rw [List.find?_eq_none] at hf
      have := hf c0 hm0
      simp [hid0] at this
    | some c =>
      have hp := List.find?_some hf
      have hm := List.mem_of_find?_eq_some hf
      simp only [decide_eq_true_eq] at hp
      exact ⟨c, hm, hp, rfl, by simp [jobData]⟩
  · intro hnone
    have hf : w.clients.find? (fun c => some c.id = parseInt w.dom.timerClientValue) = none := by
      rw [List.find?_eq_none]
      intro c hm
      simpa using hnone c hm
    simp [jobData, hf]

/-- The sample timer, client 7 at 120 an hour, stopped after 90 minutes. -/
theorem stopTimer_hourly_rate_witness :
    (sampleRunning.timer.running = true ∧
      elapsedMs samplePlatform 5400000 sampleRunning = some 5400000 ∧
      (36000 : ℚ) ≤ 5400000 ∧ sampleRunning.dom.timerClientValue ≠ "") ∧
    ∃ r : Request, (stopTimer samplePlatform 5400000 5400000 sampleRunning).requests =
        sampleRunning.requests ++ [r] ∧
      ((∃ c ∈ sampleRunning.clients, some c.id = parseInt sampleRunning.dom.timerClientValue) →
        ∃ c ∈ sampleRunning.clients,
          some c.id = parseInt sampleRunning.dom.timerClientValue ∧
          sampleRunning.clients.find?
            (fun c => some c.id = parseInt sampleRunning.dom.timerClientValue) = some c ∧
          r.body.hourly_rate = c.hourly_rate) ∧
      ((∀ c ∈ sampleRunning.clients,
          some c.id ≠ parseInt sampleRunning.dom.timerClientValue) →
        r.body.hourly_rate = 140) :=
  ⟨⟨rfl, elapsedMs_sampleRunning 5400000, by norm_num, by decide⟩,
    stopTimer_hourly_rate samplePlatform 5400000 5400000 sampleRunning 5400000 rfl
      (elapsedMs_sampleRunning 5400000) (by norm_num) (by decide)⟩

theorem isoDate_same_day (a b : Int) (h : a / 86400000 = b / 86400000) :
    isoDate a = isoDate b := by
  unfold isoDate
  rw [h]

/-- C18: the job submitted by `stopTimer` is dated with the calendar date (UTC, as
`toISOString` gives it) of the instant `now` at which the timer is stopped, the clock
being read again on that same day when the job is built; the start time does not enter:
any two timers stopped at that instant get the same `job_date`. -/
theorem stopTimer_job_date (P : Platform) (now today : Int) (w : World) (e : ℚ)
    (hrun : w.timer.running = true) (he : elapsedMs P now w = some e)
    (hgate : 36000 ≤ e) (hc : w.dom.timerClientValue ≠ "")
    (hday : today / 86400000 = now / 86400000) :
    ∃ r : Request, (stopTimer P now today w).requests = w.requests ++ [r] ∧
      r.body.job_date = isoDate now ∧
      ∀ (v : World) (e1 : ℚ), v.timer.running = true → elapsedMs P now v = some e1 →
        36000 ≤ e1 → v.dom.timerClientValue ≠ "" →
        ∃ r1 : Request, (stopTimer P now today v).requests = v.requests ++ [r1] ∧
          r1.body.job_date = r.body.job_date := by
  rw [stopTimer_running P now today w e hrun he]
  simp only [hgate, hc, ne_eq, not_false_eq_true, and_self, if_true]
  refine ⟨_, rfl, isoDate_same_day _ _ hday, ?_⟩
  intro v e1 hv1 hv2 hv3 hv4
  rw [stopTimer_running P now today v e1 hv1 hv2]
  simp only [hv3, hv4, ne_eq, not_false_eq_true, and_self, if_true]
  exact ⟨_, rfl, rfl⟩

/-- The sample timer, started on 1970-01-01 and stopped at 01:00 on the next day: the job
is dated 1970-01-02. -/
theorem stopTimer_job_date_witness :
    (sampleRunning.timer.running = true ∧
      elapsedMs samplePlatform 90000000 sampleRunning = some 90000000 ∧
      (36000 : ℚ) ≤ 90000000 ∧ sampleRunning.dom.timerClientValue ≠ "" ∧
      (90000000 : Int) / 86400000 = 90000000 / 86400000) ∧
    (isoDate 0 = "1970-01-01" ∧ isoDate 90000000 = "1970-01-02") ∧
    ∃ r : Request, (stopTimer samplePlatform 90000000 90000000 sampleRunning).requests =
        sampleRunning.requests ++ [r] ∧
      r.body.job_date = isoDate 90000000 ∧
      ∀ (v : World) (e1 : ℚ), v.timer.running = true →
        elapsedMs samplePlatform 90000000 v = some e1 →
        36000 ≤ e1 → v.dom.timerClientValue ≠ "" →
        ∃ r1 : Request, (stopTimer samplePlatform 90000000 90000000 v).requests =
            v.requests ++ [r1] ∧
          r1.body.job_date = r.body.job_date :=
  ⟨⟨rfl, elapsedMs_sampleRunning 90000000, by norm_num, by decide, rfl⟩,
    ⟨by decide, by decide⟩,
    stopTimer_job_date samplePlatform 90000000 90000000 sampleRunning 90000000 rfl
      (elapsedMs_sampleRunning 90000000) (by norm_num) (by decide) rfl⟩

/-! ## Invoice status on the invoicing page -/

/-- C19: the statuses that the buttons of a job card ask for are `sent` for a job whose
`invoice_status` is `draft`, empty or missing, `draft` and `paid` for `sent`, `sent` for
`paid`, and none for any other value; so `paid` is never offered on a draft and `draft`
never on a paid job. -/
theorem statusActions_targets (id : Int) :
    (statusActions { id := id, invoice_status := none }).map (·.target) = ["sent"] ∧
    (statusActions { id := id, invoice_status := some "" }).map (·.target) = ["sent"] ∧
    (statusActions { id := id, invoice_status := some "draft" }).map (·.target) = ["sent"] ∧
    (statusActions { id := id, invoice_status := some "sent" }).map (·.target) =
      ["draft", "paid"] ∧
    (statusActions { id := id, invoice_status := some "paid" }).map (·.target) = ["sent"] ∧
    (∀ s : String, s ≠ "" → s ≠ "draft" → s ≠ "sent" → s ≠ "paid" →
      statusActions { id := id, invoice_status := some s } = []) ∧
    (∀ job : Job, invoiceStatusOf job = "draft" →
      "paid" ∉ (statusActions job).map (·.target)) ∧
    (∀ job : Job, invoiceStatusOf job = "paid" →
      "draft" ∉ (statusActions job).map (·.target)) := by
  refine ⟨rfl, rfl, rfl, rfl, rfl, ?_, ?_, ?_⟩
  · intro s h0 h1 h2 h3
    simp [statusActions, invoiceStatusOf, h0, h1, h2, h3]
  · intro job h
    simp [statusActions, h]
  · intro job h
    simp [statusActions, h]

theorem JSON_parse_stringifyStatusBody (newStatus : String) :
    JSON_parse (stringifyStatusBody newStatus) =
      some (Json.obj [("invoice_status", Json.str newStatus)]) := by
  have hlen : 2 ≤ (stringifyStatusBody newStatus).length := by
    simp only [String.length, stringifyStatusBody, quoteJSONString, List.length_append,
      List.length_cons]
    omega
  obtain ⟨k, hk⟩ : ∃ k, 2 * (stringifyStatusBody newStatus).length + 2 = k + 3 :=
    ⟨2 * (stringifyStatusBody newStatus).length - 1, by omega⟩
  have m1 := parseMembers_last (k + 1) "invoice_status".data
    (dq :: (escapeJsonChars newStatus.data ++ dq :: [Char.ofNat 125])) [] (Json.str newStatus)
    (by rw [skipWs_cons dq _ (by decide)]; exact parseValue_string k _ _)
  generalize hx1 : (dq :: (escapeJsonChars "invoice_status".data ++ dq :: ':' ::
    dq :: (escapeJsonChars newStatus.data ++ dq :: [Char.ofNat 125]))) = x1 at m1
  have htext : (stringifyStatusBody newStatus).data = Char.ofNat 123 :: x1 := by
    rw [← hx1]
    simp only [stringifyStatusBody, quoteJSONString, List.append_assoc, List.cons_append,
      List.nil_append, List.singleton_append]
  have hx1' : skipWs x1 = x1 := by rw [← hx1, skipWs_cons dq _ (by decide)]
  obtain ⟨r1, hr1⟩ : ∃ r, x1 = dq :: r := ⟨_, hx1.symm⟩
  unfold JSON_parse
  rw [hk, htext, skipWs_cons (Char.ofNat 123) _ (by decide), parseValue.eq_def]
  have e1 : Char.ofNat 123 ≠ 'n' := by decide
  have e2 : Char.ofNat 123 ≠ 't' := by decide
  have e3 : Char.ofNat 123 ≠ 'f' := by decide
  have e4 : Char.ofNat 123 ≠ dq := by decide
  have e5 : Char.ofNat 123 ≠ '[' := by decide
  have e6 : dq ≠ Char.ofNat 125 := by decide
  simp only [e1, e2, e3, e4, e5, if_false, if_true, hx1']
  rw [hr1] at m1 ⊢
  simp only [e6, if_false, m1, skipWs, if_true]

/-- C20: for every job id and every target status, `updateInvoiceStatus` sends one `PUT`
to `/api/jobs/<id>/status` whose body reads as the object with the single member
`invoice_status`; the request is the same on every state of the page, jobs and
notifications are untouched, and the handling of the answer sends no further `PUT`. -/
theorem updateInvoiceStatus_request (jobId : Int) (newStatus : String) (w : AppWorld) :
    (updateInvoiceStatus jobId newStatus w).requests = w.requests ++
      [{ method := "PUT", url := "/api/jobs/" ++ jsIntToString jobId ++ "/status",
         contentType := "application/json", body := stringifyStatusBody newStatus }] ∧
    JSON_parse (stringifyStatusBody newStatus) =
      some (Json.obj [("invoice_status", Json.str newStatus)]) ∧
    (updateInvoiceStatus jobId newStatus w).jobs = w.jobs ∧
    (updateInvoiceStatus jobId newStatus w).notifications = w.notifications ∧
    (∀ (outcome : FetchOutcome) (v : AppWorld),
      ((updateInvoiceStatusResponse newStatus outcome v).requests.filter
        (fun r => r.method = "PUT")) = v.requests.filter (fun r => r.method = "PUT")) := by
  refine ⟨rfl, JSON_parse_stringifyStatusBody newStatus, rfl, rfl, ?_⟩
  intro outcome v
  cases outcome <;> simp [updateInvoiceStatusResponse, List.filter_append]

/-! ## Status requests at the job store -/

theorem requestedStatus_stringifyStatusBody (newStatus : String) :
    requestedStatus (stringifyStatusBody newStatus) = some newStatus := by
  simp [requestedStatus, JSON_parse_stringifyStatusBody, getProp]

theorem applyStatus_idempotent (day1 day2 target : String) (job : JobRecord) :
    applyStatus day2 target (applyStatus day1 target job) = applyStatus day1 target job := by
  unfold applyStatus
  by_cases h1 : job.invoiceStatus = "draft" ∧ target = "sent"
  · obtain ⟨_, ht⟩ := h1
    subst ht
    simp_all
  · by_cases h2 : job.invoiceStatus = "sent" ∧ target = "paid"
    · obtain ⟨_, ht⟩ := h2
      subst ht
      simp_all
    · simp only [h1, h2, if_false]
      by_cases h3 : target = "draft" ∧ target = "sent"
      · exact absurd (h3.1.symm.trans h3.2) (by decide)
      · by_cases h4 : target = "sent" ∧ target = "paid"
        · exact absurd (h4.1.symm.trans h4.2) (by decide)
        · simp only [h3, h4, if_false]

/-- C21: the card of a job that is `sent` has no button asking for `sent`, so the request
comes a second time only from a card not yet drawn anew.  The request that
`updateInvoiceStatus(jobId, 'sent')` sends names the job and the status `sent` and carries
no date.  In the job store as the spec describes it, such a request on a job that is
already `sent` leaves `invoiceSentDate` (and the rest of the record) as it was, on
whatever day it arrives; so a draft marked sent on one day and again on a later day keeps
the first day.  The same holds of every status: a request repeated changes nothing. -/
theorem sent_again_keeps_sent_date (jobId : Int) (w : AppWorld) (job : JobRecord)
    (today : String) (hsent : job.invoiceStatus = "sent") :
    (statusActions { id := jobId, invoice_status := some "sent" }).map (fun a => a.target) =
      ["draft", "paid"] ∧
    ∃ req : AppRequest,
      (updateInvoiceStatus jobId "sent" w).requests = w.requests ++ [req] ∧
      JSON_parse req.body = some (Json.obj [("invoice_status", Json.str "sent")]) ∧
      requestedStatus req.body = some "sent" ∧
      (putStatus today req job).invoiceSentDate = job.invoiceSentDate ∧
      putStatus today req job = job ∧
      (∀ (day1 day2 : String) (draft : JobRecord), draft.invoiceStatus = "draft" →
        (putStatus day1 req draft).invoiceSentDate = some day1 ∧
        (putStatus day2 req (putStatus day1 req draft)).invoiceSentDate = some day1) ∧
      (∀ (day1 day2 target : String) (j : JobRecord),
        applyStatus day2 target (applyStatus day1 target j) = applyStatus day1 target j) := by
  refine ⟨rfl, _, rfl, JSON_parse_stringifyStatusBody "sent",
    requestedStatus_stringifyStatusBody "sent", ?_, ?_, ?_, applyStatus_idempotent⟩
  · simp [putStatus, requestedStatus_stringifyStatusBody, applyStatus, hsent]
  · have e : putStatus today
        { method := "PUT", url := "/api/jobs/" ++ jsIntToString jobId ++ "/status",
          contentType := "application/json", body := stringifyStatusBody "sent" } job =
        { job with invoiceStatus := "sent" } := by
      simp [putStatus, requestedStatus_stringifyStatusBody, applyStatus, hsent]
    rw [e, ← hsent]
  · intro day1 day2 draft hd
    simp [putStatus, requestedStatus_stringifyStatusBody, applyStatus, hd]

/-- A job sent on 2 May, asked to be sent again on 9 May. -/
theorem sent_again_keeps_sent_date_witness :
    ({ invoiceStatus := "sent", invoiceSentDate := some "2024-05-02",
       invoicePaidDate := none } : JobRecord).invoiceStatus = "sent" ∧
    (statusActions { id := 12, invoice_status := some "sent" }).map (fun a => a.target) =
      ["draft", "paid"] ∧
    ∃ req : AppRequest,
      (updateInvoiceStatus 12 "sent" { jobs := [], requests := [], notifications := [] }).requests =
        ({ jobs := [], requests := [], notifications := [] } : AppWorld).requests ++ [req] ∧
      JSON_parse req.body = some (Json.obj [("invoice_status", Json.str "sent")]) ∧
      requestedStatus req.body = some "sent" ∧
      (putStatus "2024-05-09" req
        { invoiceStatus := "sent", invoiceSentDate := some "2024-05-02",
          invoicePaidDate := none }).invoiceSentDate =
        ({ invoiceStatus := "sent", invoiceSentDate := some "2024-05-02",
           invoicePaidDate := none } : JobRecord).invoiceSentDate ∧
      putStatus "2024-05-09" req
        { invoiceStatus := "sent", invoiceSentDate := some "2024-05-02",
          invoicePaidDate := none } =
        { invoiceStatus := "sent", invoiceSentDate := some "2024-05-02",
          invoicePaidDate := none } ∧
      (∀ (day1 day2 : String) (draft : JobRecord), draft.invoiceStatus = "draft" →
        (putStatus day1 req draft).invoiceSentDate = some day1 ∧
        (putStatus day2 req (putStatus day1 req draft)).invoiceSentDate = some day1) ∧
      (∀ (day1 day2 target : String) (j : JobRecord),
        applyStatus day2 target (applyStatus day1 target j) = applyStatus day1 target j) :=
  ⟨rfl, sent_again_keeps_sent_date 12 { jobs := [], requests := [], notifications := [] }
    { invoiceStatus := "sent", invoiceSentDate := some "2024-05-02", invoicePaidDate := none }
    "2024-05-09" rfl⟩

/-! ## Totals -/

theorem toFixed2_zero : toFixed2 0 = "0.00" := by
  have h : (⌊|(0 : ℚ)| * 100 + 1 / 2⌋).toNat = 0 := by
    have : ⌊|(0 : ℚ)| * 100 + 1 / 2⌋ = 0 := by
      rw [Int.floor_eq_iff]; norm_num
    rw [this]; rfl
  simp only [toFixed2, h]
  decide

theorem toFixed2_180 : toFixed2 180 = "180.00" := by
  have h : (⌊|(180 : ℚ)| * 100 + 1 / 2⌋).toNat = 18000 := by
    have : ⌊|(180 : ℚ)| * 100 + 1 / 2⌋ = 18000 := by
      rw [Int.floor_eq_iff]; norm_num
    rw [this]; rfl
  simp only [toFixed2, h]
  have : ¬ ((180 : ℚ) < 0) := by norm_num
  simp only [this, if_false]
  decide

theorem sampleNumerals_one_and_a_half : sampleNumerals.parseFloat "1.5" = some (3 / 2) := by
  simp [sampleNumerals, parseNumber, parseUnsigned, parseIntPart, parseFracPart, parseExpPart,
    spanDigits, digitsValue]
  norm_num

theorem sampleNumerals_120 : sampleNumerals.parseFloat "120" = some 120 := by
  simp [sampleNumerals, parseNumber, parseUnsigned, parseIntPart, parseFracPart, parseExpPart,
    spanDigits, digitsValue]

/-- C22: the two totals that the pages compute themselves.  `calculateJobTotal` shows a
dollar sign and, to two decimals, the product of the hours and the rate that `parseFloat`
reads in the two fields, a field read as `NaN`, an empty one for instance, counting as 0.
The toast `Job created` of
`createJobFromTimer` shows, to two decimals, the product of the hours and the hourly rate
of the job that the same call submitted. -/
theorem totals_are_hours_times_rate (N : Numerals) (d : JobFormDom) (R : Rendering)
    (today : Int) (clientId description : String) (hours rate : ℚ) (w : World) :
    (calculateJobTotal N d).jobTotalText =
      "$" ++ toFixed2 (orZero (N.parseFloat d.jobHoursValue) *
        orZero (N.parseFloat d.jobRateValue)) ∧
    (∀ h r : ℚ, N.parseFloat d.jobHoursValue = some h → N.parseFloat d.jobRateValue = some r →
      (calculateJobTotal N d).jobTotalText = "$" ++ toFixed2 (h * r)) ∧
    (N.parseFloat d.jobHoursValue = none ∨ N.parseFloat d.jobRateValue = none →
      (calculateJobTotal N d).jobTotalText = "$0.00") ∧
    (d.jobHoursValue = "" ∨ d.jobRateValue = "" →
      (calculateJobTotal N d).jobTotalText = "$0.00") ∧
    (calculateJobTotal sampleNumerals
      { jobHoursValue := "1.5", jobRateValue := "120", jobTotalText := "" }).jobTotalText =
      "$180.00" ∧
    (calculateJobTotal sampleNumerals
      { jobHoursValue := "", jobRateValue := "120", jobTotalText := "" }).jobTotalText =
      "$0.00" ∧
    (∃ r : Request,
      (createJobFromTimer today clientId description hours rate w).requests =
        w.requests ++ [r] ∧
      r.body.hours = (mathRound (hours * 4) : ℚ) / 4 ∧ r.body.hourly_rate = rate ∧
      ∀ v : World,
        (createJobFromTimerResponse R hours rate FetchOutcome.ok v).notifications =
          v.notifications ++
            [{ message := "Job created: " ++ toFixed2 r.body.hours ++ " hrs @ $" ++
                 R.numberText r.body.hourly_rate ++ "/hr = $" ++
                 toFixed2 (r.body.hours * r.body.hourly_rate),
               type := "success" }]) := by
  have hnan : N.parseFloat d.jobHoursValue = none ∨ N.parseFloat d.jobRateValue = none →
      (calculateJobTotal N d).jobTotalText = "$0.00" := by
    intro h
    have : orZero (N.parseFloat d.jobHoursValue) * orZero (N.parseFloat d.jobRateValue) = 0 := by
      rcases h with h | h <;> simp [h, orZero]
    simp only [calculateJobTotal, this, toFixed2_zero]
    decide
  refine ⟨rfl, ?_, hnan, ?_, ?_, ?_, ⟨_, rfl, rfl, rfl, fun v => rfl⟩⟩
  · intro h r hh hr
    simp only [calculateJobTotal, hh, hr, orZero]
  · intro h
    apply hnan
    rcases h with h | h
    · left; rw [h]; exact N.parseFloat_empty
    · right; rw [h]; exact N.parseFloat_empty
  · simp only [calculateJobTotal, sampleNumerals_one_and_a_half, sampleNumerals_120, orZero]
    have : (3 / 2 : ℚ) * 120 = 180 := by norm_num
    rw [this, toFixed2_180]
    decide
  · have h1 : sampleNumerals.parseFloat "" = none := rfl
    simp only [calculateJobTotal, h1, orZero, zero_mul, toFixed2_zero]
    decide

/-! ## The tick -/

theorem updateTimerDisplay_eq (P : Platform) (now : Int) (w : World) :
    updateTimerDisplay P now w =
      { w with dom := { w.dom with timerClockText :=
          if w.timer.running = true then formatDuration (elapsedMs P now w)
          else w.dom.timerClockText } } := by
  unfold updateTimerDisplay
  cases h : w.timer.running <;> simp

theorem runTicks_eq (P : Platform) (ticks : List Int) : ∀ w : World,
    runTicks P ticks w =
      { w with dom := { w.dom with timerClockText := (runTicks P ticks w).dom.timerClockText } } := by
  induction ticks with
  | nil => intro w; rfl
  | cons t ts ih =>
    intro w
    have h := ih (updateTimerDisplay P t w)
    have e : runTicks P (t :: ts) w = runTicks P ts (updateTimerDisplay P t w) := rfl
    rw [e, h, updateTimerDisplay_eq]

theorem stopTimer_eq (P : Platform) (now today : Int) (w : World) :
    stopTimer P now today w =
      if w.timer.running = false then w
      else stopTimerAfterCancel P now today (clearInterval w.timer.interval w) := rfl

theorem clearInterval_eq (h : Option Nat) (w : World) :
    clearInterval h w = { w with intervals := (clearInterval h w).intervals } := by
  cases h <;> rfl

theorem stopTimer_clock (P : Platform) (now today : Int) (w : World) (text : String) :
    stopTimer P now today { w with dom := { w.dom with timerClockText := text } } =
      { stopTimer P now today w with
        dom := { (stopTimer P now today w).dom with timerClockText := text } } := by
  rw [stopTimer_eq, stopTimer_eq]
  cases hr : w.timer.running with
  | false => simp [hr]
  | true =>
    have hc : clearInterval w.timer.interval { w with dom := { w.dom with timerClockText := text } } =
        { (clearInterval w.timer.interval w) with
          dom := { w.dom with timerClockText := text } } := by
      cases w.timer.interval <;> rfl
    simp only [hr, Bool.true_eq_false, if_false]
    rw [hc, clearInterval_eq w.timer.interval w]
    simp only [stopTimerAfterCancel, elapsedMs, jsDivConst]
    cases jsSub (some (now : ℚ)) (toNumber P w.timer.startTime) with
    | none => simp
    | some x =>
      simp only [Option.map_some']
      by_cases hg : 1 / 100 ≤ x / (1000 * 60 * 60) ∧ w.dom.timerClientValue ≠ ""
      · simp only [hg, ne_eq, not_false_eq_true, and_self, if_true, createJobFromTimer]
      · simp only [hg, if_false]

theorem runTicks_not_running (P : Platform) (ticks : List Int) : ∀ w : World,
    w.timer.running = false → runTicks P ticks w = w := by
  induction ticks with
  | nil => intro w _; rfl
  | cons t ts ih =>
    intro w h
    have e : runTicks P (t :: ts) w = runTicks P ts (updateTimerDisplay P t w) := rfl
    have e2 : updateTimerDisplay P t w = w := by simp [updateTimerDisplay, h]
    rw [e, e2, ih w h]

/-- C23: the tick `updateTimerDisplay` writes the clock text and nothing else: the timer
object (`running`, `startTime`, `elapsed`), the stored record and everything but the
clock text are as before, and on a running timer the text is
`formatDuration(now - startTime)`.  So after any ticks, none included, `stopTimer`
computes the same elapsed time and leaves the same page, the clock text apart. -/
theorem updateTimerDisplay_cosmetic (P : Platform) (now : Int) (w : World) :
    updateTimerDisplay P now w =
      { w with dom := { w.dom with timerClockText :=
          if w.timer.running = true then formatDuration (elapsedMs P now w)
          else w.dom.timerClockText } } ∧
    (updateTimerDisplay P now w).timer = w.timer ∧
    (updateTimerDisplay P now w).localStorage = w.localStorage ∧
    elapsedMs P now w = jsSub (some (now : ℚ)) (toNumber P w.timer.startTime) ∧
    (∀ (ticks : List Int) (stop today : Int),
      (runTicks P ticks w).timer = w.timer ∧
      (runTicks P ticks w).localStorage = w.localStorage ∧
      elapsedMs P stop (runTicks P ticks w) = elapsedMs P stop w ∧
      stopTimer P stop today (runTicks P ticks w) =
        { stopTimer P stop today w with
          dom := { (stopTimer P stop today w).dom with
            timerClockText := (runTicks P ticks w).dom.timerClockText } } ∧
      (stopTimer P stop today (runTicks P ticks w)).dom.timerStatusText =
        (stopTimer P stop today w).dom.timerStatusText ∧
      (stopTimer P stop today (runTicks P ticks w)).requests =
        (stopTimer P stop today w).requests) := by
  have h := updateTimerDisplay_eq P now w
  refine ⟨h, by rw [h], by rw [h], rfl, ?_⟩
  intro ticks stop today
  have hr := runTicks_eq P ticks w
  have hs : stopTimer P stop today (runTicks P ticks w) =
      { stopTimer P stop today w with
        dom := { (stopTimer P stop today w).dom with
          timerClockText := (runTicks P ticks w).dom.timerClockText } } := by
    conv_lhs => rw [hr]
    exact stopTimer_clock P stop today w _
  refine ⟨by rw [hr], by rw [hr], by rw [hr]; rfl, hs, by rw [hs], by rw [hs]⟩

theorem stopTimerAfterCancel_intervals (P : Platform) (now today : Int) (w1 : World) :
    (stopTimerAfterCancel P now today w1).intervals = w1.intervals ∧
    (stopTimerAfterCancel P now today w1).timer.running = false := by
  simp only [stopTimerAfterCancel]
  cases jsDivConst (elapsedMs P now
      { w1 with timer := { w1.timer with running := false } }) (1000 * 60 * 60) with
  | none => exact ⟨rfl, rfl⟩
  | some x =>
    by_cases hg : 1 / 100 ≤ x ∧ w1.dom.timerClientValue ≠ ""
    · simp only [hg, ne_eq, not_false_eq_true, and_self, if_true, createJobFromTimer]
    · simp only [hg, if_false, and_self]

/-- C24: in `stopTimer`, after the test of `running`, the tick is cancelled first:
`stopTimer` is the cancelling of the handle kept in `opsState.timer.interval`, which
changes the schedule and nothing else, followed by the rest (elapsed time, removal of the
record, panel, job).  The handle is not scheduled afterwards.  And a tick has no effect
on a page whose timer does not run, so after `stopTimer` no tick, however many fire,
changes the page. -/
theorem stopTimer_cancels_tick_first (P : Platform) (now today : Int) (w : World) :
    stopTimer P now today w =
      (if w.timer.running = false then w
       else stopTimerAfterCancel P now today (clearInterval w.timer.interval w)) ∧
    ((clearInterval w.timer.interval w).timer = w.timer ∧
      (clearInterval w.timer.interval w).localStorage = w.localStorage ∧
      (clearInterval w.timer.interval w).dom = w.dom ∧
      (clearInterval w.timer.interval w).requests = w.requests) ∧
    (∀ h : Nat, w.timer.interval = some h →
      h ∉ (clearInterval w.timer.interval w).intervals ∧
      (w.timer.running = true → h ∉ (stopTimer P now today w).intervals)) ∧
    (stopTimer P now today w).timer.running = false ∧
    (∀ (v : World) (t : Int), v.timer.running = false → updateTimerDisplay P t v = v) ∧
    (∀ ticks : List Int,
      runTicks P ticks (stopTimer P now today w) = stopTimer P now today w) := by
  have hrun : (stopTimer P now today w).timer.running = false := by
    rw [stopTimer_eq]
    cases hr : w.timer.running with
    | false => simpa using hr
    | true =>
      simp only [Bool.true_eq_false, if_false]
      exact (stopTimerAfterCancel_intervals P now today _).2
  refine ⟨rfl, ?_, ?_, hrun, ?_, ?_⟩
  · cases w.timer.interval <;> exact ⟨rfl, rfl, rfl, rfl⟩
  · intro h hh
    have h1 : h ∉ (clearInterval w.timer.interval w).intervals := by
      rw [hh]; simp [clearInterval]
    refine ⟨h1, fun hr => ?_⟩
    rw [stopTimer_eq]
    simp only [hr, Bool.true_eq_false, if_false]
    rw [(stopTimerAfterCancel_intervals P now today _).1]
    exact h1
  · intro v t hv
    simp [updateTimerDisplay, hv]
  · intro ticks
    exact runTicks_not_running P ticks _ hrun

/-! ## The job form -/

theorem handleJobFormSubmit_requests (N : Numerals) (form : JobFormEntries) (w : JobFormWorld) :
    ∃ r : JobFormRequest,
      (handleJobFormSubmit N form w).requests = w.requests ++ [r] ∧
      r.body = jobFormData N w.clients form := by
  unfold handleJobFormSubmit
  cases w.currentEditingJob with
  | none => exact ⟨_, rfl, rfl⟩
  | some id =>
    by_cases h : id ≠ 0
    · simp only [h, ne_eq, not_false_eq_true, if_true]; exact ⟨_, rfl, rfl⟩
    · simp only [h, if_false]; exact ⟨_, rfl, rfl⟩

/-- C25: the `hourly_rate` that `handleJobFormSubmit` submits.  When the rate field is
empty, or `parseFloat` reads it as `NaN` or as 0, it is the hourly rate of the loaded
client whose id is `parseInt` of the selected client id (the first such client), and 140
when no loaded client has that id; for every other number read it is that number. -/
theorem handleJobFormSubmit_hourly_rate (N : Numerals) (form : JobFormEntries)
    (w : JobFormWorld) :
    ∃ r : JobFormRequest,
      (handleJobFormSubmit N form w).requests = w.requests ++ [r] ∧
      ((form.hourly_rate = "" ∨ N.parseFloat form.hourly_rate = none ∨
          N.parseFloat form.hourly_rate = some 0) →
        ((∃ c ∈ w.clients, some c.id = parseInt form.client_id) →
          ∃ c ∈ w.clients, some c.id = parseInt form.client_id ∧
            w.clients.find? (fun c => some c.id = parseInt form.client_id) = some c ∧
            r.body.hourly_rate = c.hourly_rate) ∧
        ((∀ c ∈ w.clients, some c.id ≠ parseInt form.client_id) →
          r.body.hourly_rate = 140)) ∧
      (∀ q : ℚ, N.parseFloat form.hourly_rate = some q → q ≠ 0 → r.body.hourly_rate = q) := by
  obtain ⟨r, hr, hb⟩ := handleJobFormSubmit_requests N form w
  refine ⟨r, hr, ?_, ?_⟩
  · intro hrate0
    have hrate : N.parseFloat form.hourly_rate = none ∨
        N.parseFloat form.hourly_rate = some 0 := by
      rcases hrate0 with h | h | h
      · left; rw [h]; exact N.parseFloat_empty
      · exact Or.inl h
      · exact Or.inr h
    have hfall : ∀ x : Option Client,
        w.clients.find? (fun c => some c.id = parseInt form.client_id) = x →
        r.body.hourly_rate = (match x with
          | some c => c.hourly_rate
          | none => 140) := by
      intro x hx
      rw [hb]
      rcases hrate with h | h <;> cases x <;> simp [jobFormData, h, hx]
    constructor
    · rintro ⟨c0, hm0, hid0⟩
      cases hf : w.clients.find? (fun c => some c.id = parseInt form.client_id) with
      | none =>
        rw [List.find?_eq_none] at hf
        have := hf c0 hm0
        simp [hid0] at this
      | some c =>
        have hp := List.find?_some hf
        have hm := List.mem_of_find?_eq_some hf
        simp only [decide_eq_true_eq] at hp
        exact ⟨c, hm, hp, rfl, hfall _ hf⟩
    · intro hnone
      have hf : w.clients.find? (fun c => some c.id = parseInt form.client_id) = none := by
        rw [List.find?_eq_none]
        intro c hm
        simpa using hnone c hm
      exact hfall _ hf
  · intro q hq hne
    rw [hb]
    simp [jobFormData, hq, hne]

/-- The sample job form: the rate left empty with client 7 loaded (120 an hour), the
same with no client loaded, and a rate of 95 entered. -/
theorem handleJobFormSubmit_examples :
    (handleJobFormSubmit sampleNumerals sampleJobForm sampleJobFormWorld).requests.map
        (fun r => r.body.hourly_rate) = [120] ∧
    (handleJobFormSubmit sampleNumerals sampleJobForm
        { sampleJobFormWorld with clients := [] }).requests.map
        (fun r => r.body.hourly_rate) = [140] ∧
    (handleJobFormSubmit sampleNumerals { sampleJobForm with hourly_rate := "95" }
        sampleJobFormWorld).requests.map (fun r => r.body.hourly_rate) = [95] := by
  have h0 : sampleNumerals.parseFloat "" = none := rfl
  have h7 : parseInt "7" = some 7 := by decide
  have h95 : sampleNumerals.parseFloat "95" = some 95 := by
    simp [sampleNumerals, parseNumber, parseUnsigned, parseIntPart, parseFracPart, parseExpPart,
      spanDigits, digitsValue]
  refine ⟨?_, ?_, ?_⟩
  · simp [handleJobFormSubmit, jobFormData, sampleJobForm, sampleJobFormWorld, h0, h7]
  · simp [handleJobFormSubmit, jobFormData, sampleJobForm, sampleJobFormWorld, h0, h7]
  · simp [handleJobFormSubmit, jobFormData, sampleJobForm, sampleJobFormWorld, h95, h7]

/-! ## Quarter hours -/

theorem mathRound_mono (x y : ℚ) (h : x ≤ y) : mathRound x ≤ mathRound y := by
  unfold mathRound
  exact Int.floor_mono (by linarith)

theorem mathRound_intCast (k : ℤ) : mathRound (k : ℚ) = k := by
  unfold mathRound
  rw [Int.floor_eq_iff]
  constructor <;> linarith

theorem mathRound_eq_zero (x : ℚ) (h0 : -(1 / 2) ≤ x) (h1 : x < 1 / 2) : mathRound x = 0 := by
  unfold mathRound
  rw [Int.floor_eq_iff]
  constructor <;> push_cast <;> linarith

theorem jobData_hours (today : Int) (clientId description : String) (hours rate : ℚ) :
    (jobData today clientId description hours rate).hours = (mathRound (hours * 4) : ℚ) / 4 :=
  rfl

/-- C26: a running timer with a client selected, stopped after `e` milliseconds: for
`36000 <= e < 450000` one job is submitted and its hours are 0, so hours times rate is 0;
at `e = 450000` the hours are 0.25; from there on they are at least 0.25; and below
450000 no job with hours other than 0 is submitted.  The doubles agree at the boundary:
`449999 / 3600000` is below an eighth and `450000 / 3600000` is an eighth. -/
theorem stopTimer_bills_nothing (P : Platform) (now today : Int) (w : World) (e : ℚ)
    (hrun : w.timer.running = true) (he : elapsedMs P now w = some e)
    (hc : w.dom.timerClientValue ≠ "") :
    (36000 ≤ e → e < 450000 →
      ∃ r : Request, (stopTimer P now today w).requests = w.requests ++ [r] ∧
        r.body.hours = 0 ∧ r.body.hours * r.body.hourly_rate = 0) ∧
    (e = 450000 →
      ∃ r : Request, (stopTimer P now today w).requests = w.requests ++ [r] ∧
        r.body.hours = 1 / 4) ∧
    (450000 ≤ e →
      ∃ r : Request, (stopTimer P now today w).requests = w.requests ++ [r] ∧
        1 / 4 ≤ r.body.hours) ∧
    (e < 450000 →
      submittedHours (stopTimer P now today w) = submittedHours w ∨
      submittedHours (stopTimer P now today w) = submittedHours w ++ [0]) ∧
    ((hoursDouble 449999).num * 8 < (hoursDouble 449999).den ∧
      (hoursDouble 450000).num * 8 = (hoursDouble 450000).den) := by
  have hs := stopTimer_running P now today w e hrun he
  have hzero : 36000 ≤ e → e < 450000 → mathRound (e / 3600000 * 4) = 0 := by
    intro h1 h2
    apply mathRound_eq_zero <;> linarith
  refine ⟨?_, ?_, ?_, ?_, by decide⟩
  · intro h1 h2
    rw [hs]
    simp only [h1, hc, ne_eq, not_false_eq_true, and_self, if_true]
    refine ⟨_, rfl, ?_, ?_⟩
    · rw [jobData_hours, hzero h1 h2]; norm_num
    · rw [jobData_hours, hzero h1 h2]; norm_num
  · intro h1
    have h36 : (36000 : ℚ) ≤ e := by rw [h1]; norm_num
    rw [hs]
    simp only [h36, hc, ne_eq, not_false_eq_true, and_self, if_true]
    refine ⟨_, rfl, ?_⟩
    have : mathRound (e / 3600000 * 4) = 1 := by
      rw [h1]; unfold mathRound; rw [Int.floor_eq_iff]; norm_num
    rw [jobData_hours, this]; norm_num
  · intro h1
    have h36 : (36000 : ℚ) ≤ e := by linarith
    rw [hs]
    simp only [h36, hc, ne_eq, not_false_eq_true, and_self, if_true]
    refine ⟨_, rfl, ?_⟩
    have h := mathRound_mono (1 / 2) (e / 3600000 * 4) (by linarith)
    have h' : mathRound (1 / 2 : ℚ) = 1 := by
      unfold mathRound; rw [Int.floor_eq_iff]; norm_num
    rw [h'] at h
    rw [jobData_hours]
    have : (1 : ℚ) ≤ (mathRound (e / 3600000 * 4) : ℚ) := by exact_mod_cast h
    linarith
  · intro h2
    rw [hs]
    by_cases h1 : 36000 ≤ e
    · right
      simp only [h1, hc, ne_eq, not_false_eq_true, and_self, if_true, submittedHours,
        List.map_append, List.map_cons, List.map_nil]
      rw [jobData_hours, hzero h1 h2]; norm_num
    · left
      simp only [h1, false_and, if_false, submittedHours]

/-- The sample timer (client 7) stopped after five minutes: a job of 0 hours. -/
theorem stopTimer_bills_nothing_witness :
    (sampleRunning.timer.running = true ∧
      elapsedMs samplePlatform 300000 sampleRunning = some 300000 ∧
      sampleRunning.dom.timerClientValue ≠ "") ∧
    ((36000 ≤ (300000 : ℚ) → (300000 : ℚ) < 450000 →
      ∃ r : Request, (stopTimer samplePlatform 300000 300000 sampleRunning).requests =
          sampleRunning.requests ++ [r] ∧
        r.body.hours = 0 ∧ r.body.hours * r.body.hourly_rate = 0) ∧
    ((300000 : ℚ) = 450000 →
      ∃ r : Request, (stopTimer samplePlatform 300000 300000 sampleRunning).requests =
          sampleRunning.requests ++ [r] ∧
        r.body.hours = 1 / 4) ∧
    (450000 ≤ (300000 : ℚ) →
      ∃ r : Request, (stopTimer samplePlatform 300000 300000 sampleRunning).requests =
          sampleRunning.requests ++ [r] ∧
        1 / 4 ≤ r.body.hours) ∧
    ((300000 : ℚ) < 450000 →
      submittedHours (stopTimer samplePlatform 300000 300000 sampleRunning) =
        submittedHours sampleRunning ∨
      submittedHours (stopTimer samplePlatform 300000 300000 sampleRunning) =
        submittedHours sampleRunning ++ [0]) ∧
    ((hoursDouble 449999).num * 8 < (hoursDouble 449999).den ∧
      (hoursDouble 450000).num * 8 = (hoursDouble 450000).den)) :=
  ⟨⟨rfl, elapsedMs_sampleRunning 300000, by decide⟩,
    stopTimer_bills_nothing samplePlatform 300000 300000 sampleRunning 300000 rfl
      (elapsedMs_sampleRunning 300000) (by decide)⟩

/-! ## Memory and store in step -/

theorem storedRecord_absent (w : World) (h : getItem w.localStorage "bps_timer" = none) :
    storedRecord w = none := by
  simp [storedRecord, h]

theorem storedRecord_removeItem (w v : World)
    (h : v.localStorage = removeItem w.localStorage "bps_timer") :
    storedRecord v = none := by
  apply storedRecord_absent
  rw [h]
  exact getItem_removeItem _ _

theorem storedRecord_congr (w v : World) (h : v.localStorage = w.localStorage) :
    storedRecord v = storedRecord w := by
  simp [storedRecord, h]

theorem inStep_congr (w v : World) (hs : v.localStorage = w.localStorage)
    (ht : v.timer = w.timer) (h : InStep w) : InStep v := by
  have e := storedRecord_congr w v hs
  unfold InStep storedRunning storedStartTime at *
  rw [e, ht]
  exact h

theorem storedTrue_congr (w v : World) (hs : v.localStorage = w.localStorage)
    (h : StoredTrue w) : StoredTrue v := by
  have e := storedRecord_congr w v hs
  unfold StoredTrue storedRunning at *
  rw [e]
  exact h

theorem inStep_stopped (v : World) (hr : v.timer.running = false)
    (hs : storedRecord v = none) : InStep v ∧ StoredTrue v := by
  unfold InStep StoredTrue storedRunning storedStartTime
  rw [hs, hr]
  simp

theorem stopTimerAfterCancel_frame (P : Platform) (now today : Int) (w1 : World) :
    (stopTimerAfterCancel P now today w1).timer = { w1.timer with running := false } ∧
    (stopTimerAfterCancel P now today w1).localStorage =
      removeItem w1.localStorage "bps_timer" := by
  simp only [stopTimerAfterCancel]
  cases jsDivConst (elapsedMs P now
      { w1 with timer := { w1.timer with running := false } }) (1000 * 60 * 60) with
  | none => exact ⟨rfl, rfl⟩
  | some x =>
    by_cases hg : 1 / 100 ≤ x ∧ w1.dom.timerClientValue ≠ ""
    · simp only [hg, ne_eq, not_false_eq_true, and_self, if_true, createJobFromTimer]
    · simp only [hg, if_false, and_self]

theorem storedRecord_startTimer (now : Int) (w : World) (hc : w.dom.timerClientValue ≠ "") :
    storedRecord (startTimer now w) =
      some (Json.obj [("running", Json.bool true), ("startTime", Json.num (now : ℚ)),
        ("clientId", Json.str w.dom.timerClientValue),
        ("description", Json.str w.dom.timerDescriptionValue)]) := by
  rw [startTimer_selected now w hc]
  simp only [storedRecord, getItem_setItem, JSON_parse_stringifyTimerRecord]

theorem startTimer_unselected (now : Int) (w : World) (hc : w.dom.timerClientValue = "") :
    startTimer now w = showNotification "Please select a client first" "error" w := by
  simp [startTimer, hc]

theorem inStep_startTimer (now : Int) (w : World) (h : InStep w) :
    InStep (startTimer now w) := by
  by_cases hc : w.dom.timerClientValue = ""
  · rw [startTimer_unselected now w hc]
    exact inStep_congr w _ rfl rfl h
  · have e := startTimer_selected now w hc
    have hrec := storedRecord_startTimer now w hc
    have hrun : (startTimer now w).timer.running = true := by rw [e]
    have hst : (startTimer now w).timer.startTime = some (Json.num (now : ℚ)) := by rw [e]
    refine ⟨?_, fun _ => ?_⟩
    · rw [hrun]; simp [storedRunning, hrec, getProp, truthy]
    · rw [hst]; simp [storedStartTime, hrec, getProp]

theorem storedTrue_startTimer (now : Int) (w : World) (h : StoredTrue w) :
    StoredTrue (startTimer now w) := by
  by_cases hc : w.dom.timerClientValue = ""
  · rw [startTimer_unselected now w hc]
    exact storedTrue_congr w _ rfl h
  · exact fun _ => ⟨_, storedRecord_startTimer now w hc, by simp [getProp]⟩

theorem inStep_stopTimer (P : Platform) (now today : Int) (w : World) (h : InStep w) :
    InStep (stopTimer P now today w) := by
  rw [stopTimer_eq]
  cases hr : w.timer.running with
  | false => simpa using h
  | true =>
    simp only [Bool.true_eq_false, if_false]
    obtain ⟨h1, h2⟩ := stopTimerAfterCancel_frame P now today (clearInterval w.timer.interval w)
    refine (inStep_stopped _ ?_ ?_).1
    · rw [h1]
    · apply storedRecord_removeItem (clearInterval w.timer.interval w)
      exact h2

theorem storedTrue_stopTimer (P : Platform) (now today : Int) (w : World) (h : StoredTrue w) :
    StoredTrue (stopTimer P now today w) := by
  rw [stopTimer_eq]
  cases hr : w.timer.running with
  | false => simpa using h
  | true =>
    simp only [Bool.true_eq_false, if_false]
    obtain ⟨h1, h2⟩ := stopTimerAfterCancel_frame P now today (clearInterval w.timer.interval w)
    refine (inStep_stopped _ ?_ ?_).2
    · rw [h1]
    · apply storedRecord_removeItem (clearInterval w.timer.interval w)
      exact h2

theorem inStep_callTimer (P : Platform) (c : TimerCall) (w : World) (h : InStep w) :
    InStep (callTimer P c w) := by
  cases c with
  | start now => exact inStep_startTimer now w h
  | stop now today => exact inStep_stopTimer P now today w h
  | tick now =>
    show InStep (updateTimerDisplay P now w)
    rw [updateTimerDisplay_eq]
    exact inStep_congr w _ rfl rfl h

theorem storedTrue_callTimer (P : Platform) (c : TimerCall) (w : World) (h : StoredTrue w) :
    StoredTrue (callTimer P c w) := by
  cases c with
  | start now => exact storedTrue_startTimer now w h
  | stop now today => exact storedTrue_stopTimer P now today w h
  | tick now =>
    show StoredTrue (updateTimerDisplay P now w)
    rw [updateTimerDisplay_eq]
    exact storedTrue_congr w _ rfl h

theorem inStep_runCalls (P : Platform) (calls : List TimerCall) : ∀ w : World,
    InStep w → InStep (runCalls P calls w) := by
  induction calls with
  | nil => intro w h; exact h
  | cons c cs ih =>
    intro w h
    have e : runCalls P (c :: cs) w = runCalls P cs (callTimer P c w) := rfl
    rw [e]
    exact ih _ (inStep_callTimer P c w h)

theorem storedTrue_runCalls (P : Platform) (calls : List TimerCall) : ∀ w : World,
    StoredTrue w → StoredTrue (runCalls P calls w) := by
  induction calls with
  | nil => intro w h; exact h
  | cons c cs ih =>
    intro w h
    have e : runCalls P (c :: cs) w = runCalls P cs (callTimer P c w) := rfl
    rw [e]
    exact ih _ (storedTrue_callTimer P c w h)

theorem restoreTry_running (P : Platform) (R : Rendering) (now : Int) (saved : String)
    (w : World) (data : Json) (hp : JSON_parse saved = some data) (hn : data ≠ Json.null)
    (ht : truthy (getProp data "running") = true) :
    ∃ v : World, restoreTry P R now saved w = some v ∧ v.timer.running = true ∧
      v.timer.startTime = getProp data "startTime" ∧ v.localStorage = w.localStorage := by
  cases data with
  | null => exact absurd rfl hn
  | bool b => simp [getProp, truthy] at ht
  | num q => simp [getProp, truthy] at ht
  | str s => simp [getProp, truthy] at ht
  | arr xs => simp [getProp, truthy] at ht
  | obj kvs =>
    simp only [restoreTry, hp, ht, if_true, setInterval, updateTimerDisplay_eq]
    exact ⟨_, rfl, rfl, rfl, rfl⟩

theorem restoreTry_idle (P : Platform) (R : Rendering) (now : Int) (saved : String)
    (w : World) (data : Json) (hp : JSON_parse saved = some data) (hn : data ≠ Json.null)
    (ht : truthy (getProp data "running") = false) :
    restoreTry P R now saved w = some w := by
  cases data with
  | null => exact absurd rfl hn
  | bool b => simp [restoreTry, hp, getProp, truthy]
  | num q => simp [restoreTry, hp, getProp, truthy]
  | str s => simp [restoreTry, hp, getProp, truthy]
  | arr xs => simp [restoreTry, hp, getProp, truthy]
  | obj kvs => simp only [restoreTry, hp, ht, Bool.false_eq_true, if_false]

theorem restoreTry_null (P : Platform) (R : Rendering) (now : Int) (saved : String)
    (w : World) (hp : JSON_parse saved = some Json.null) :
    restoreTry P R now saved w = none := by
  simp only [restoreTry, hp]

theorem inStep_restoreTimerState (P : Platform) (R : Rendering) (now : Int) (page : World)
    (hfresh : page.timer.running = false) : InStep (restoreTimerState P R now page) := by
  unfold restoreTimerState
  cases hg : getItem page.localStorage "bps_timer" with
  | none =>
    exact (inStep_stopped page hfresh (storedRecord_absent page hg)).1
  | some saved =>
    by_cases he : saved = ""
    · simp only [he, if_true]
      refine (inStep_stopped page hfresh ?_).1
      simp only [storedRecord, hg, he]
      rfl
    · simp only [he, if_false]
      have hrec : storedRecord page = JSON_parse saved := by simp [storedRecord, hg]
      have hremoved : InStep { page with localStorage := removeItem page.localStorage "bps_timer" } :=
        (inStep_stopped { page with localStorage := removeItem page.localStorage "bps_timer" }
          hfresh (storedRecord_removeItem page
            { page with localStorage := removeItem page.localStorage "bps_timer" } rfl)).1
      cases hp : JSON_parse saved with
      | none =>
        simp only [restoreTry, hp]
        exact hremoved
      | some data =>
        by_cases hn : data = Json.null
        · subst hn
          rw [restoreTry_null P R now saved page hp]
          exact hremoved
        · cases ht : truthy (getProp data "running") with
          | false =>
            rw [restoreTry_idle P R now saved page data hp hn ht]
            simp only [InStep, storedRunning, storedStartTime, hrec, hp, ht, hfresh,
              Bool.false_eq_true, false_implies, and_self]
          | true =>
            obtain ⟨v, hv, h1, h2, h3⟩ := restoreTry_running P R now saved page data hp hn ht
            rw [hv]
            have hrv : storedRecord v = some data := by
              rw [storedRecord_congr page v h3, hrec, hp]
            simp only [InStep, storedRunning, storedStartTime, hrv, ht, h1, h2, implies_true,
              and_self]

theorem storedTrue_restoreTimerState (P : Platform) (R : Rendering) (now : Int) (page : World)
    (h : StoredTrue page) : StoredTrue (restoreTimerState P R now page) := by
  have key : (restoreTimerState P R now page).localStorage = page.localStorage ∨
      (restoreTimerState P R now page).localStorage =
        removeItem page.localStorage "bps_timer" := by
    unfold restoreTimerState
    cases hg : getItem page.localStorage "bps_timer" with
    | none => exact Or.inl rfl
    | some saved =>
      by_cases he : saved = ""
      · simp [he]
      · simp only [he, if_false]
        cases hp : JSON_parse saved with
        | none => simp [restoreTry, hp]
        | some data =>
          by_cases hn : data = Json.null
          · subst hn
            rw [restoreTry_null P R now saved page hp]; exact Or.inr rfl
          · cases ht : truthy (getProp data "running") with
            | false =>
              rw [restoreTry_idle P R now saved page data hp hn ht]; exact Or.inl rfl
            | true =>
              obtain ⟨v, hv, _, _, h3⟩ := restoreTry_running P R now saved page data hp hn ht
              rw [hv]; exact Or.inl h3
  rcases key with k | k
  · exact storedTrue_congr page _ k h
  · intro hs
    have := storedRecord_removeItem page _ k
    simp [storedRunning, this] at hs

/-- C27: on a page loaded with its timer at rest, after `restoreTimerState` and then any
sequence of calls of `startTimer`, `stopTimer` and `updateTimerDisplay`, at any readings
of the clock: `opsState.timer.running` is true exactly when a `bps_timer` record is
stored whose `running` passes the test that `restoreTimerState` makes of it, and then the
stored `startTime` is `opsState.timer.startTime`.  The `running` of such a record is the
value `true` whenever that was so for the record found at load, as it is for every record
that `startTimer` writes; and then it is so again for the record that the next load
finds. -/
theorem timer_state_in_step (P : Platform) (R : Rendering) (t : Int) (page : World)
    (calls : List TimerCall) (hfresh : page.timer.running = false) :
    ((runCalls P calls (restoreTimerState P R t page)).timer.running = true ↔
      storedRunning (runCalls P calls (restoreTimerState P R t page)) = true) ∧
    ((runCalls P calls (restoreTimerState P R t page)).timer.running = true →
      storedStartTime (runCalls P calls (restoreTimerState P R t page)) =
        (runCalls P calls (restoreTimerState P R t page)).timer.startTime) ∧
    ((storedRunning page = true →
        ∃ data, storedRecord page = some data ∧
          getProp data "running" = some (Json.bool true)) →
      ((runCalls P calls (restoreTimerState P R t page)).timer.running = true ↔
        ∃ data, storedRecord (runCalls P calls (restoreTimerState P R t page)) = some data ∧
          getProp data "running" = some (Json.bool true)) ∧
      (∀ next : World,
        next.localStorage = (runCalls P calls (restoreTimerState P R t page)).localStorage →
        storedRunning next = true →
        ∃ data, storedRecord next = some data ∧
          getProp data "running" = some (Json.bool true))) := by
  have hin := inStep_runCalls P calls _ (inStep_restoreTimerState P R t page hfresh)
  refine ⟨?_, hin.2, fun hp => ?_⟩
  · rw [hin.1]
  · have hst := storedTrue_runCalls P calls _ (storedTrue_restoreTimerState P R t page hp)
    refine ⟨⟨fun hr => ?_, ?_⟩, fun next hn => storedTrue_congr _ next hn hst⟩
    · exact hst (by rw [← hin.1]; exact hr)
    · rintro ⟨data, hd, hb⟩
      rw [hin.1]
      simp [storedRunning, hd, hb, truthy]

/-- The sample timer restored on a fresh page, ticked, stopped and started again. -/
theorem timer_state_in_step_witness :
    sampleReloaded.timer.running = false ∧
    (((runCalls samplePlatform
        [TimerCall.tick 20000, TimerCall.stop 5400000 5400000, TimerCall.start 6000000]
        (restoreTimerState samplePlatform sampleRendering 10000 sampleReloaded)).timer.running =
        true ↔
      storedRunning (runCalls samplePlatform
        [TimerCall.tick 20000, TimerCall.stop 5400000 5400000, TimerCall.start 6000000]
        (restoreTimerState samplePlatform sampleRendering 10000 sampleReloaded)) = true) ∧
    ((runCalls samplePlatform
        [TimerCall.tick 20000, TimerCall.stop 5400000 5400000, TimerCall.start 6000000]
        (restoreTimerState samplePlatform sampleRendering 10000 sampleReloaded)).timer.running =
        true →
      storedStartTime (runCalls samplePlatform
        [TimerCall.tick 20000, TimerCall.stop 5400000 5400000, TimerCall.start 6000000]
        (restoreTimerState samplePlatform sampleRendering 10000 sampleReloaded)) =
        (runCalls samplePlatform
          [TimerCall.tick 20000, TimerCall.stop 5400000 5400000, TimerCall.start 6000000]
          (restoreTimerState samplePlatform sampleRendering 10000
            sampleReloaded)).timer.startTime) ∧
    ((storedRunning sampleReloaded = true →
        ∃ data, storedRecord sampleReloaded = some data ∧
          getProp data "running" = some (Json.bool true)) →
      ((runCalls samplePlatform
          [TimerCall.tick 20000, TimerCall.stop 5400000 5400000, TimerCall.start 6000000]
          (restoreTimerState samplePlatform sampleRendering 10000
            sampleReloaded)).timer.running = true ↔
        ∃ data, storedRecord (runCalls samplePlatform
            [TimerCall.tick 20000, TimerCall.stop 5400000 5400000, TimerCall.start 6000000]
            (restoreTimerState samplePlatform sampleRendering 10000 sampleReloaded)) =
            some data ∧
          getProp data "running" = some (Json.bool true)) ∧
      (∀ next : World,
        next.localStorage = (runCalls samplePlatform
          [TimerCall.tick 20000, TimerCall.stop 5400000 5400000, TimerCall.start 6000000]
          (restoreTimerState samplePlatform sampleRendering 10000
            sampleReloaded)).localStorage →
        storedRunning next = true →
        ∃ data, storedRecord next = some data ∧
          getProp data "running" = some (Json.bool true)))) :=
  ⟨rfl, timer_state_in_step samplePlatform sampleRendering 10000 sampleReloaded
    [TimerCall.tick 20000, TimerCall.stop 5400000 5400000, TimerCall.start 6000000] rfl⟩

/-- C28: the hours billed by `createJobFromTimer`, `round(hours*4)/4`, never go down when
the hours worked go up (for all `h1 <= h2`, so for all `0 <= h1 <= h2`), and billing hours
that are already billed hours changes nothing (for every `h`, so for every `h >= 0`). -/
theorem billed_hours_monotone_idempotent (today : Int) (clientId description : String)
    (rate h1 h2 : ℚ) (h12 : h1 ≤ h2) :
    (jobData today clientId description h1 rate).hours ≤
      (jobData today clientId description h2 rate).hours ∧
    (∀ w : World, ∃ b1 b2 : ℚ,
      submittedHours (createJobFromTimer today clientId description h1 rate w) =
        submittedHours w ++ [b1] ∧
      submittedHours (createJobFromTimer today clientId description h2 rate w) =
        submittedHours w ++ [b2] ∧ b1 ≤ b2) ∧
    (∀ h : ℚ,
      (jobData today clientId description
        (jobData today clientId description h rate).hours rate).hours =
      (jobData today clientId description h rate).hours) := by
  have hm : (jobData today clientId description h1 rate).hours ≤
      (jobData today clientId description h2 rate).hours := by
    rw [jobData_hours, jobData_hours]
    have h := mathRound_mono (h1 * 4) (h2 * 4) (by linarith)
    have : (mathRound (h1 * 4) : ℚ) ≤ (mathRound (h2 * 4) : ℚ) := by exact_mod_cast h
    linarith
  refine ⟨hm, fun w => ⟨_, _, submittedHours_createJobFromTimer _ _ _ _ _ _,
    submittedHours_createJobFromTimer _ _ _ _ _ _, hm⟩, ?_⟩
  intro h
  rw [jobData_hours, jobData_hours]
  have : (mathRound (h * 4) : ℚ) / 4 * 4 = ((mathRound (h * 4) : ℤ) : ℚ) := by ring
  rw [this, mathRound_intCast]

/-- Fifty minutes and an hour and a half: 0.75 and 1.5 hours billed. -/
theorem billed_hours_monotone_idempotent_witness :
    (5 / 6 : ℚ) ≤ 3 / 2 ∧
    ((jobData 0 "7" "Audit" (5 / 6) 120).hours ≤ (jobData 0 "7" "Audit" (3 / 2) 120).hours ∧
    (∀ w : World, ∃ b1 b2 : ℚ,
      submittedHours (createJobFromTimer 0 "7" "Audit" (5 / 6) 120 w) =
        submittedHours w ++ [b1] ∧
      submittedHours (createJobFromTimer 0 "7" "Audit" (3 / 2) 120 w) =
        submittedHours w ++ [b2] ∧ b1 ≤ b2) ∧
    (∀ h : ℚ,
      (jobData 0 "7" "Audit" (jobData 0 "7" "Audit" h 120).hours 120).hours =
      (jobData 0 "7" "Audit" h 120).hours)) :=
  ⟨by norm_num,
    billed_hours_monotone_idempotent 0 "7" "Audit" 120 (5 / 6) (3 / 2) (by norm_num)⟩

/-! ## Escaping -/

theorem mapText_escapeHtmlMap (c : Char) (h : isEscapedChar c = true) :
    mapText escapeHtmlMap c =
      if c = '&' then "&amp;" else if c = '<' then "&lt;" else if c = '>' then "&gt;"
      else if c = dq then "&quot;" else "&#039;" := by
  simp only [isEscapedChar, Bool.or_eq_true, decide_eq_true_eq] at h
  rcases h with (((h | h) | h) | h) | h <;> subst h <;> rfl

theorem replaceEscaped_eq (cs : List Char) :
    replaceEscaped escapeHtmlMap cs =
      (cs.map (fun c =>
        if c = '&' then "&amp;".data else if c = '<' then "&lt;".data
        else if c = '>' then "&gt;".data else if c = dq then "&quot;".data
        else if c = Char.ofNat 39 then "&#039;".data else [c])).flatten := by
  induction cs with
  | nil => rfl
  | cons c cs ih =>
    simp only [replaceEscaped, List.map_cons, List.flatten_cons, ih]
    congr 1
    by_cases h : isEscapedChar c = true
    · rw [if_pos h, mapText_escapeHtmlMap c h]
      simp only [isEscapedChar, Bool.or_eq_true, decide_eq_true_eq] at h
      rcases h with (((h | h) | h) | h) | h <;> subst h <;> rfl
    · rw [if_neg h]
      simp only [isEscapedChar, Bool.or_eq_true, decide_eq_true_eq, not_or] at h
      obtain ⟨⟨⟨⟨h1, h2⟩, h3⟩, h4⟩, h5⟩ := h
      simp only [h1, h2, h3, h4, h5, if_false]

theorem replaceEscaped_clean (cs : List Char) :
    ∀ c ∈ replaceEscaped escapeHtmlMap cs,
      c ≠ '<' ∧ c ≠ '>' ∧ c ≠ dq ∧ c ≠ Char.ofNat 39 := by
  induction cs with
  | nil => intro c hc; simp [replaceEscaped] at hc
  | cons d ds ih =>
    intro c hc
    simp only [replaceEscaped, List.mem_append] at hc
    rcases hc with hc | hc
    · by_cases h : isEscapedChar d = true
      · rw [if_pos h, mapText_escapeHtmlMap d h] at hc
        revert c
        simp only [isEscapedChar, Bool.or_eq_true, decide_eq_true_eq] at h
        rcases h with (((h | h) | h) | h) | h <;> subst h <;> decide
      · rw [if_neg h] at hc
        simp only [List.mem_singleton] at hc
        subst hc
        simp only [isEscapedChar, Bool.or_eq_true, decide_eq_true_eq, not_or] at h
        exact ⟨h.1.1.1.2, h.1.1.2, h.1.2, h.2⟩
    · exact ih c hc

theorem escapeHtml_string (s : String) :
    escapeHtml (some (Json.str s)) = some (String.mk (replaceEscaped escapeHtmlMap s.data)) := by
  by_cases h : s = ""
  · subst h; rfl
  · simp [escapeHtml, truthy, h]

/-- C29: on a string, `escapeHtml` replaces each ampersand, less-than, greater-than, double
quote and apostrophe by its entity and copies every other character in place, so the
result holds no less-than, greater-than, double quote or apostrophe; on the empty string,
`null` and `undefined` the result is the empty string; and the copy in app.js returns what
the copy in ops.js returns, on every value. -/
theorem escapeHtml_entities (s : String) :
    escapeHtml (some (Json.str s)) =
      some (String.mk (s.data.map (fun c =>
        if c = '&' then "&amp;".data else if c = '<' then "&lt;".data
        else if c = '>' then "&gt;".data else if c = dq then "&quot;".data
        else if c = Char.ofNat 39 then "&#039;".data else [c])).flatten) ∧
    (∀ t : String, escapeHtml (some (Json.str s)) = some t →
      ∀ c ∈ t.data, c ≠ '<' ∧ c ≠ '>' ∧ c ≠ dq ∧ c ≠ Char.ofNat 39) ∧
    escapeHtml (some (Json.str (String.mk ['<', 'b', '>', '&', dq, Char.ofNat 39, 'x']))) =
      some "&lt;b&gt;&amp;&quot;&#039;x" ∧
    escapeHtml (some (Json.str "")) = some "" ∧
    escapeHtml (some Json.null) = some "" ∧
    escapeHtml none = some "" ∧
    (∀ v : JsVal, App.escapeHtml v = escapeHtml v) := by
  refine ⟨?_, ?_, by decide, rfl, rfl, rfl, fun v => rfl⟩
  · rw [escapeHtml_string, replaceEscaped_eq]
  · intro t ht c hc
    rw [escapeHtml_string] at ht
    simp only [Option.some.injEq] at ht
    subst ht
    exact replaceEscaped_clean s.data c hc

end Ops
